import Mathlib

/-!
Verification development for the AICAD interactive drawing canvas.

The Python sources (`drawing_canvas.py`, `annotations.py`) are shallowly
embedded below.  Mutable Python objects are modelled with an explicit
object store ("heap"): each object gets a numeric identity, the lists
`shapes` / `selected_shapes` (resp. `annotations` / `selected_annotations`)
hold identities, and in-place mutation becomes an update of the store at
that identity.  Python floats are modelled as real numbers.
-/

namespace AICAD

/-! ## Object store helpers -/

/-- First entry of the store with the given identity (Python attribute read). -/
def heapLookup {α : Type} : List (Nat × α) → Nat → Option α
  | [], _ => none
  | (j, a) :: rest, i => if j = i then some a else heapLookup rest i

/-- Update the entry with identity `i` in place (Python attribute write). -/
def heapUpd {α : Type} (h : List (Nat × α)) (i : Nat) (f : α → α) : List (Nat × α) :=
  h.map fun e => if e.1 = i then (e.1, f e.2) else e

theorem heapUpd_cons {α : Type} (k : Nat) (a : α) (rest : List (Nat × α)) (i : Nat)
    (f : α → α) :
    heapUpd ((k, a) :: rest) i f =
      (if k = i then (k, f a) else (k, a)) :: heapUpd rest i f := by
  simp only [heapUpd, List.map_cons]

theorem heapLookup_heapUpd {α : Type} (h : List (Nat × α)) (i j : Nat) (f : α → α) :
    heapLookup (heapUpd h i f) j =
      if j = i then (heapLookup h j).map f else heapLookup h j := by
  induction h with
  | nil => simp [heapLookup, heapUpd]
  | cons e rest ih =>
    obtain ⟨k, a⟩ := e
    rw [heapUpd_cons]
    by_cases hk : k = i
    · rw [if_pos hk]
      by_cases hj : k = j
      · subst hk; subst hj
        simp [heapLookup]
      · have hj' : ¬ j = i := by
          rw [← hk]; exact fun hc => hj hc.symm
        simp only [heapLookup, if_neg hj, ih, if_neg hj']
    · rw [if_neg hk]
      by_cases hj : k = j
      · have hj' : ¬ j = i := fun hc => hk (hj.trans hc)
        simp only [heapLookup, if_pos hj, if_neg hj']
      · simp only [heapLookup, if_neg hj, ih]

/-- A per-identity fold of in-place updates (a Python `for shape in ...:` loop). -/
def foldUpd {α : Type} (h : List (Nat × α)) (ids : List Nat) (f : α → α) : List (Nat × α) :=
  ids.foldl (fun acc i => heapUpd acc i f) h

theorem heapLookup_foldUpd {α : Type} (ids : List Nat) (h : List (Nat × α)) (j : Nat)
    (f : α → α) (idem : ∀ a, f (f a) = f a) :
    heapLookup (foldUpd h ids f) j =
      if j ∈ ids then (heapLookup h j).map f else heapLookup h j := by
  induction ids generalizing h with
  | nil => simp [foldUpd]
  | cons i rest ih =>
    have step : foldUpd h (i :: rest) f = foldUpd (heapUpd h i f) rest f := rfl
    rw [step, ih]
    by_cases hj : j ∈ rest
    · rw [if_pos hj, if_pos (List.mem_cons_of_mem i hj), heapLookup_heapUpd]
      by_cases hji : j = i
      · subst hji
        simp only [if_pos rfl, Option.map_map]
        cases heapLookup h j with
        | none => rfl
        | some a => simp [Function.comp, idem]
      · rw [if_neg hji]
    · rw [if_neg hj, heapLookup_heapUpd]
      by_cases hji : j = i
      · subst hji
        simp [List.mem_cons]
      · rw [if_neg hji, if_neg (by simp [List.mem_cons, hji, hj])]

theorem heapLookup_isSome_foldUpd {α : Type} (ids : List Nat) (h : List (Nat × α)) (j : Nat)
    (f : α → α) :
    (heapLookup (foldUpd h ids f) j).isSome = (heapLookup h j).isSome := by
  induction ids generalizing h with
  | nil => rfl
  | cons i rest ih =>
    have step : foldUpd h (i :: rest) f = foldUpd (heapUpd h i f) rest f := rfl
    rw [step, ih, heapLookup_heapUpd]
    by_cases hji : j = i
    · subst hji
      simp
    · rw [if_neg hji]

/-! ## Real-number helpers for the pixel-distance comparisons -/

theorem sqrt_le_ten {a : ℝ} (h : a ≤ 100) : Real.sqrt a ≤ 10 :=
  Real.sqrt_le_iff.mpr ⟨by norm_num, by linarith⟩

theorem not_sqrt_le_ten {a : ℝ} (h : 100 < a) : ¬ Real.sqrt a ≤ 10 := by
  intro hle
  have := (Real.sqrt_le_iff.mp hle).2
  linarith

theorem sqrt_le_sqrt_of_le {a b : ℝ} (h : a ≤ b) : Real.sqrt a ≤ Real.sqrt b :=
  Real.sqrt_le_sqrt h

/-! ## `annotations.py` — data model -/

/-- `Point` dataclass of annotations.py. -/
structure Pt where
  x : ℝ
  y : ℝ

/-- `Point.distance_to`. -/
noncomputable def ptDist (a b : Pt) : ℝ :=
  Real.sqrt ((a.x - b.x) ^ 2 + (a.y - b.y) ^ 2)

/-- `BoundingBox` of annotations.py. -/
structure BoundingBox where
  minPoint : Pt
  maxPoint : Pt

/-- `BoundingBox.contains_point`: inside test, else clamped per-axis gap distance
against the threshold. -/
noncomputable def BoundingBox.containsPoint (b : BoundingBox) (p : Pt) (threshold : ℝ) :
    Bool :=
  if b.minPoint.x ≤ p.x ∧ p.x ≤ b.maxPoint.x ∧ b.minPoint.y ≤ p.y ∧ p.y ≤ b.maxPoint.y then
    true
  else
    -- dx = max(min.x - p.x, 0, p.x - max.x); dy likewise
    let dx := max (b.minPoint.x - p.x) (max 0 (p.x - b.maxPoint.x))
    let dy := max (b.minPoint.y - p.y) (max 0 (p.y - b.maxPoint.y))
    decide (Real.sqrt (dx * dx + dy * dy) ≤ threshold)

/-- Geometry payload of the three `Annotation` subclasses.  The field written
`end` in the source is called `stop` here (`end` is reserved in Lean). -/
inductive AnnData
  | line (start stop : Pt) (isHorizontal : Bool)
  | rect (start stop : Pt)
  | text (pos : Pt) (content : String) (fontSize : ℝ) (textW textH : ℝ)

/-- An `Annotation` object: payload plus the base-class fields used by the
manager (`color`, `width`, `is_selected`). -/
structure Ann where
  data : AnnData
  color : String
  width : ℝ
  isSelected : Bool

/-- `LineAnnotation.__init__`: `is_horizontal = abs(start.y - end.y) < 2`. -/
noncomputable def mkLineAnn (start stop : Pt) (color : String) (width : ℝ) : Ann :=
  { data := AnnData.line start stop (decide (|start.y - stop.y| < 2))
    color := color, width := width, isSelected := false }

/-- `RectangleAnnotation.__init__`. -/
def mkRectAnn (start stop : Pt) (color : String) (width : ℝ) : Ann :=
  { data := AnnData.rect start stop, color := color, width := width, isSelected := false }

/-- `TextAnnotation.__init__` (text metrics start at 0, filled in on first draw). -/
def mkTextAnn (pos : Pt) (content : String) (color : String) (fontSize : ℝ) : Ann :=
  { data := AnnData.text pos content fontSize 0 0
    color := color, width := 1, isSelected := false }

/-- `move(dx, dy)` of each subclass.  A horizontal line keeps `end.y = start.y`
after the move. -/
noncomputable def annMove (a : Ann) (dx dy : ℝ) : Ann :=
  match a.data with
  | AnnData.line s e horiz =>
    if horiz then
      { a with data := AnnData.line ⟨s.x + dx, s.y + dy⟩ ⟨e.x + dx, s.y + dy⟩ horiz }
    else
      { a with data := AnnData.line ⟨s.x + dx, s.y + dy⟩ ⟨e.x + dx, e.y + dy⟩ horiz }
  | AnnData.rect s e =>
    { a with data := AnnData.rect ⟨s.x + dx, s.y + dy⟩ ⟨e.x + dx, e.y + dy⟩ }
  | AnnData.text p c fs w h =>
    { a with data := AnnData.text ⟨p.x + dx, p.y + dy⟩ c fs w h }

/-- `get_bounding_box` of each subclass. -/
noncomputable def annBoundingBox (a : Ann) : BoundingBox :=
  match a.data with
  | AnnData.line s e _ =>
    ⟨⟨min s.x e.x, min s.y e.y⟩, ⟨max s.x e.x, max s.y e.y⟩⟩
  | AnnData.rect s e =>
    ⟨⟨min s.x e.x, min s.y e.y⟩, ⟨max s.x e.x, max s.y e.y⟩⟩
  | AnnData.text p _ _ w h =>
    ⟨p, ⟨p.x + w, p.y + h⟩⟩

/-- `contains_point` of each subclass (`threshold` defaults to 5 at call sites).
Lines use point-to-segment distance with a degenerate-segment branch; rectangles
and text delegate to the bounding box. -/
noncomputable def annContainsPoint (a : Ann) (p : Pt) (threshold : ℝ) : Bool :=
  match a.data with
  | AnnData.line s e _ =>
    if ptDist s e < 0.1 then decide (ptDist s p < threshold)
    else
      let dx := e.x - s.x
      let dy := e.y - s.y
      let l2 := dx * dx + dy * dy
      let t := max 0 (min 1 (((p.x - s.x) * dx + (p.y - s.y) * dy) / l2))
      let projX := s.x + t * dx
      let projY := s.y + t * dy
      decide (Real.sqrt ((p.x - projX) ^ 2 + (p.y - projY) ^ 2) < threshold)
  | AnnData.rect _ _ => (annBoundingBox a).containsPoint p threshold
  | AnnData.text _ _ _ _ _ => (annBoundingBox a).containsPoint p threshold

/-- Set the `is_selected` flag of an annotation object. -/
def setFlag (b : Bool) (a : Ann) : Ann := { a with isSelected := b }

/-! ## `annotations.py` — AnnotationManager -/

/-- `AnnotationManager` state: annotation objects live in `heap`, the
`annotations` and `selected_annotations` lists hold object identities. -/
structure Manager where
  heap : List (Nat × Ann)
  nextId : Nat
  annotations : List Nat
  selected : List Nat

/-- `AnnotationManager.__init__`. -/
def initManager : Manager := ⟨[], 0, [], []⟩

/-- `add_annotation`. -/
def addAnn (m : Manager) (a : Ann) : Manager :=
  { m with heap := m.heap ++ [(m.nextId, a)]
           annotations := m.annotations ++ [m.nextId]
           nextId := m.nextId + 1 }

/-- `remove_annotation`: only acts when the object is in the collection, and
then also drops it from the selection. -/
def removeAnn (m : Manager) (i : Nat) : Manager :=
  if i ∈ m.annotations then
    { m with annotations := m.annotations.erase i
             selected := if i ∈ m.selected then m.selected.erase i else m.selected }
  else m

/-- `clear_selection`: reset the flag of every selected annotation, then empty
the selection list. -/
def clearSelection (m : Manager) : Manager :=
  { m with heap := foldUpd m.heap m.selected (setFlag false), selected := [] }

/-- The candidate search of `select_annotation`: walk the (already reversed)
annotation list; a containing annotation that is already selected wins
immediately, otherwise the nearest-by-corner-distance containing annotation is
tracked (`min_distance` starts at infinity, modelled by the `none`
accumulator). -/
noncomputable def selectSearch (m : Manager) (p : Pt) :
    List Nat → Option (Nat × ℝ) → Option Nat
  | [], best => best.map Prod.fst
  | i :: rest, best =>
    match heapLookup m.heap i with
    | none => selectSearch m p rest best
    | some a =>
      if annContainsPoint a p 5 then
        if i ∈ m.selected then some i
        else
          let bbox := annBoundingBox a
          let d := min (ptDist p bbox.minPoint) (ptDist p bbox.maxPoint)
          match best with
          | none => selectSearch m p rest (some (i, d))
          | some (q, md) =>
            if d < md then selectSearch m p rest (some (i, d))
            else selectSearch m p rest (some (q, md))
      else selectSearch m p rest best

/-- `select_annotation(point, ctrl_pressed)`. -/
noncomputable def selectAnn (m : Manager) (p : Pt) (ctrl : Bool) :
    Manager × Option Nat :=
  match selectSearch m p m.annotations.reverse none with
  | none => if ctrl then (m, none) else (clearSelection m, none)
  | some t =>
    if ctrl then
      if t ∈ m.selected then
        ({ m with selected := m.selected.erase t
                  heap := heapUpd m.heap t (setFlag false) }, some t)
      else
        ({ m with selected := m.selected ++ [t]
                  heap := heapUpd m.heap t (setFlag true) }, some t)
    else
      let m1 := clearSelection m
      ({ m1 with selected := m1.selected ++ [t]
                 heap := heapUpd m1.heap t (setFlag true) }, some t)

/-- Inner loop of `select_multiple` for one sampled point: pick the first
containing, not-yet-selected annotation in reverse order. -/
noncomputable def selectScan (m : Manager) (p : Pt) : List Nat → Manager
  | [] => m
  | i :: rest =>
    match heapLookup m.heap i with
    | none => selectScan m p rest
    | some a =>
      if annContainsPoint a p 5 = true ∧ i ∉ m.selected then
        { m with selected := m.selected ++ [i], heap := heapUpd m.heap i (setFlag true) }
      else selectScan m p rest

/-- `select_multiple(points, ctrl_pressed)`. -/
noncomputable def selectMultiple (m : Manager) (pts : List Pt) (ctrl : Bool) : Manager :=
  let m0 := if ctrl then m else clearSelection m
  pts.foldl (fun acc q => selectScan acc q acc.annotations.reverse) m0

/-- `move_selected(dx, dy)`. -/
noncomputable def moveSelected (m : Manager) (dx dy : ℝ) : Manager :=
  { m with heap := foldUpd m.heap m.selected (fun a => annMove a dx dy) }

/-! ## `drawing_canvas.py` — shape model -/

/-- Variant-specific geometry of the four `Shape` subclasses.  `Circle` stores
its radius, computed once at construction; `Polygon` keeps its geometry only in
the shared `points` list. -/
inductive Geom
  | line (x1 y1 x2 y2 : ℝ)
  | rect (x1 y1 x2 y2 : ℝ)
  | circle (centerX centerY x2 y2 radius : ℝ)
  | poly

/-- A `Shape` object: variant geometry plus the base-class fields and the
mutable `points` list. -/
structure Shape where
  geom : Geom
  color : String
  width : ℝ
  style : Option (ℝ × ℝ)
  points : List (ℝ × ℝ)
  isSelected : Bool

/-- `Line.__init__`. -/
def mkLine (x1 y1 x2 y2 : ℝ) (color : String) (width : ℝ) (style : Option (ℝ × ℝ)) :
    Shape :=
  { geom := Geom.line x1 y1 x2 y2, color := color, width := width, style := style
    points := [(x1, y1), (x2, y2)], isSelected := false }

/-- `Rectangle.__init__`: the stored corners are normalized with min/max. -/
noncomputable def mkRectangle (x1 y1 x2 y2 : ℝ) (color : String) (width : ℝ)
    (style : Option (ℝ × ℝ)) : Shape :=
  let nx1 := min x1 x2
  let ny1 := min y1 y2
  let nx2 := max x1 x2
  let ny2 := max y1 y2
  { geom := Geom.rect nx1 ny1 nx2 ny2, color := color, width := width, style := style
    points := [(nx1, ny1), (nx2, ny1), (nx2, ny2), (nx1, ny2)], isSelected := false }

/-- `Circle.__init__`: radius derived once from the two stored points. -/
noncomputable def mkCircle (centerX centerY x2 y2 : ℝ) (color : String) (width : ℝ)
    (style : Option (ℝ × ℝ)) : Shape :=
  { geom := Geom.circle centerX centerY x2 y2
      (Real.sqrt ((x2 - centerX) ^ 2 + (y2 - centerY) ^ 2))
    color := color, width := width, style := style
    points := [(centerX, centerY), (x2, y2)], isSelected := false }

/-- `Polygon.__init__`. -/
def mkPolygon (pts : List (ℝ × ℝ)) (color : String) (width : ℝ)
    (style : Option (ℝ × ℝ)) : Shape :=
  { geom := Geom.poly, color := color, width := width, style := style
    points := pts, isSelected := false }

/-- Attribute read `shape.x1`.  `Circle`/`Polygon` have no `x1`; reading it in
Python would raise, and every embedded call site guards the shape kind, so the
value returned for them here is never observed. -/
def Shape.getX1 (s : Shape) : ℝ :=
  match s.geom with
  | Geom.line x1 _ _ _ => x1
  | Geom.rect x1 _ _ _ => x1
  | Geom.circle _ _ _ _ _ => 0
  | Geom.poly => 0

/-- Attribute read `shape.y1` (see `Shape.getX1` for `Circle`/`Polygon`). -/
def Shape.getY1 (s : Shape) : ℝ :=
  match s.geom with
  | Geom.line _ y1 _ _ => y1
  | Geom.rect _ y1 _ _ => y1
  | Geom.circle _ _ _ _ _ => 0
  | Geom.poly => 0

/-- Attribute read `shape.x2` (`Circle` does store `x2`). -/
def Shape.getX2 (s : Shape) : ℝ :=
  match s.geom with
  | Geom.line _ _ x2 _ => x2
  | Geom.rect _ _ x2 _ => x2
  | Geom.circle _ _ x2 _ _ => x2
  | Geom.poly => 0

/-- Attribute read `shape.y2` (`Circle` does store `y2`). -/
def Shape.getY2 (s : Shape) : ℝ :=
  match s.geom with
  | Geom.line _ _ _ y2 => y2
  | Geom.rect _ _ _ y2 => y2
  | Geom.circle _ _ _ y2 _ => y2
  | Geom.poly => 0

/-- Attribute write `shape.x1 = v`.  On `Circle`/`Polygon` Python `setattr`
would create a fresh attribute that no embedded code ever reads back, so the
write is modelled as a no-op there. -/
def Shape.setX1 (s : Shape) (v : ℝ) : Shape :=
  match s.geom with
  | Geom.line _ y1 x2 y2 => { s with geom := Geom.line v y1 x2 y2 }
  | Geom.rect _ y1 x2 y2 => { s with geom := Geom.rect v y1 x2 y2 }
  | _ => s

/-- Attribute write `shape.y1 = v` (see `Shape.setX1`). -/
def Shape.setY1 (s : Shape) (v : ℝ) : Shape :=
  match s.geom with
  | Geom.line x1 _ x2 y2 => { s with geom := Geom.line x1 v x2 y2 }
  | Geom.rect x1 _ x2 y2 => { s with geom := Geom.rect x1 v x2 y2 }
  | _ => s

/-- Attribute write `shape.x2 = v` (real field on `Line`, `Rectangle`, `Circle`). -/
def Shape.setX2 (s : Shape) (v : ℝ) : Shape :=
  match s.geom with
  | Geom.line x1 y1 _ y2 => { s with geom := Geom.line x1 y1 v y2 }
  | Geom.rect x1 y1 _ y2 => { s with geom := Geom.rect x1 y1 v y2 }
  | Geom.circle cx cy _ y2 r => { s with geom := Geom.circle cx cy v y2 r }
  | Geom.poly => s

/-- Attribute write `shape.y2 = v` (see `Shape.setX2`). -/
def Shape.setY2 (s : Shape) (v : ℝ) : Shape :=
  match s.geom with
  | Geom.line x1 y1 x2 _ => { s with geom := Geom.line x1 y1 x2 v }
  | Geom.rect x1 y1 x2 _ => { s with geom := Geom.rect x1 y1 x2 v }
  | Geom.circle cx cy x2 _ r => { s with geom := Geom.circle cx cy x2 v r }
  | Geom.poly => s

/-- Attribute write `shape.points = pts`. -/
def Shape.setPoints (s : Shape) (pts : List (ℝ × ℝ)) : Shape := { s with points := pts }

/-! ## `drawing_canvas.py` — geometry kernel -/

/-- `get_line_line_intersection`: solve for the parameters `t`, `u`; keep the
point only when both lie in `[0, 1]`. -/
noncomputable def getLineLineIntersection (line1 line2 : (ℝ × ℝ) × (ℝ × ℝ)) :
    List (ℝ × ℝ) :=
  let x1 := line1.1.1
  let y1 := line1.1.2
  let x2 := line1.2.1
  let y2 := line1.2.2
  let x3 := line2.1.1
  let y3 := line2.1.2
  let x4 := line2.2.1
  let y4 := line2.2.2
  let den := (x1 - x2) * (y3 - y4) - (y1 - y2) * (x3 - x4)
  if den = 0 then []
  else
    let t := ((x1 - x3) * (y3 - y4) - (y1 - y3) * (x3 - x4)) / den
    let u := -((x1 - x2) * (y1 - y3) - (y1 - y2) * (x1 - x3)) / den
    if 0 ≤ t ∧ t ≤ 1 ∧ 0 ≤ u ∧ u ≤ 1 then
      [(x1 + t * (x2 - x1), y1 + t * (y2 - y1))]
    else []

/-- `get_circle_line_intersection`: vertical, horizontal, and general slopes as
three explicit cases, discriminant classified with the 0.1 tolerance. -/
noncomputable def getCircleLineIntersection (x1 y1 x2 y2 cx cy r : ℝ) :
    List (ℝ × ℝ) :=
  if x2 - x1 = 0 then
    let x := x1
    let b := -2 * cy
    let c := cy * cy + (x - cx) * (x - cx) - r * r
    let d := b * b - 4 * 1 * c
    if d < -0.1 then []
    else if |d| ≤ 0.1 then
      let y := -b / (2 * 1)
      if min y1 y2 ≤ y ∧ y ≤ max y1 y2 then [(x, y)] else []
    else
      let yi1 := (-b + Real.sqrt d) / (2 * 1)
      let yi2 := (-b - Real.sqrt d) / (2 * 1)
      (if min y1 y2 ≤ yi1 ∧ yi1 ≤ max y1 y2 then [(x, yi1)] else []) ++
        (if min y1 y2 ≤ yi2 ∧ yi2 ≤ max y1 y2 then [(x, yi2)] else [])
  else if y2 - y1 = 0 then
    let y := y1
    let b := -2 * cx
    let c := cx * cx + (y - cy) * (y - cy) - r * r
    let d := b * b - 4 * 1 * c
    if d < -0.1 then []
    else if |d| ≤ 0.1 then
      let x := -b / (2 * 1)
      if min x1 x2 ≤ x ∧ x ≤ max x1 x2 then [(x, y)] else []
    else
      let xi1 := (-b + Real.sqrt d) / (2 * 1)
      let xi2 := (-b - Real.sqrt d) / (2 * 1)
      (if min x1 x2 ≤ xi1 ∧ xi1 ≤ max x1 x2 then [(xi1, y)] else []) ++
        (if min x1 x2 ≤ xi2 ∧ xi2 ≤ max x1 x2 then [(xi2, y)] else [])
  else
    let m := (y2 - y1) / (x2 - x1)
    let b := y1 - m * x1
    let bigA := 1 + m * m
    let bigB := 2 * (m * (b - cy) - cx)
    let bigC := cx * cx + (b - cy) * (b - cy) - r * r
    let d := bigB * bigB - 4 * bigA * bigC
    if d < -0.1 then []
    else if |d| ≤ 0.1 then
      let x := -bigB / (2 * bigA)
      let y := m * x + b
      if min x1 x2 ≤ x ∧ x ≤ max x1 x2 ∧ min y1 y2 ≤ y ∧ y ≤ max y1 y2 then
        [(x, y)]
      else []
    else
      let xi1 := (-bigB + Real.sqrt d) / (2 * bigA)
      let xi2 := (-bigB - Real.sqrt d) / (2 * bigA)
      (if min x1 x2 ≤ xi1 ∧ xi1 ≤ max x1 x2 ∧
          min y1 y2 ≤ m * xi1 + b ∧ m * xi1 + b ≤ max y1 y2 then
        [(xi1, m * xi1 + b)]
      else []) ++
        (if min x1 x2 ≤ xi2 ∧ xi2 ≤ max x1 x2 ∧
            min y1 y2 ≤ m * xi2 + b ∧ m * xi2 + b ≤ max y1 y2 then
          [(xi2, m * xi2 + b)]
        else [])

/-- `math.atan2` (used by the two-point circle-circle branch). -/
noncomputable def atan2 (y x : ℝ) : ℝ :=
  if 0 < x then Real.arctan (y / x)
  else if x < 0 then
    if 0 ≤ y then Real.arctan (y / x) + Real.pi else Real.arctan (y / x) - Real.pi
  else if 0 < y then Real.pi / 2
  else if y < 0 then -(Real.pi / 2)
  else 0

/-- `get_circle_circle_intersection`: classify by the center distance against
the radii; tangency returns the single point at parameter `r1 / d` along the
center-to-center segment; otherwise two points via the law-of-cosines angle. -/
noncomputable def circleCircleIntersection (x1 y1 r1 x2 y2 r2 : ℝ) :
    List (ℝ × ℝ) :=
  let d := Real.sqrt ((x2 - x1) ^ 2 + (y2 - y1) ^ 2)
  if r1 + r2 < d then []
  else if d < |r1 - r2| then []
  else if d = 0 ∧ r1 = r2 then []
  else if d = r1 + r2 ∨ d = |r1 - r2| then
    let t := r1 / d
    [(x1 + t * (x2 - x1), y1 + t * (y2 - y1))]
  else
    let a := Real.arccos ((r1 * r1 + d * d - r2 * r2) / (2 * r1 * d))
    let base := atan2 (y2 - y1) (x2 - x1)
    [(x1 + r1 * Real.cos (base + a), y1 + r1 * Real.sin (base + a)),
     (x1 + r1 * Real.cos (base - a), y1 + r1 * Real.sin (base - a))]

/-- `get_shape_lines`: the segments making up a shape (none for circles). -/
def getShapeLines (s : Shape) : List ((ℝ × ℝ) × (ℝ × ℝ)) :=
  match s.geom with
  | Geom.line _ _ _ _ =>
    match s.points with
    | p0 :: p1 :: _ => [(p0, p1)]
    | _ => []
  | Geom.rect _ _ _ _ =>
    match s.points with
    | p0 :: p1 :: p2 :: p3 :: _ => [(p0, p1), (p1, p2), (p2, p3), (p3, p0)]
    | _ => []
  | Geom.circle _ _ _ _ _ => []
  | Geom.poly => s.points.zipWith (fun p q => (p, q)) (s.points.rotate 1)

/-- The circle-versus-decomposed-shape arm of `get_intersection_points`. -/
noncomputable def circleVsSegments (cx cy r : ℝ) (other : Shape) : List (ℝ × ℝ) :=
  ((getShapeLines other).map fun l =>
    getCircleLineIntersection l.1.1 l.1.2 l.2.1 l.2.2 cx cy r).flatten

/-- `get_intersection_points`: dispatch on the variant pair. -/
noncomputable def getIntersectionPoints (s1 s2 : Shape) : List (ℝ × ℝ) :=
  match s1.geom, s2.geom with
  | Geom.circle cx cy _ _ r, Geom.line _ _ _ _ => circleVsSegments cx cy r s2
  | Geom.circle cx cy _ _ r, Geom.rect _ _ _ _ => circleVsSegments cx cy r s2
  | Geom.circle cx cy _ _ r, Geom.poly => circleVsSegments cx cy r s2
  | Geom.line _ _ _ _, Geom.circle cx cy _ _ r => circleVsSegments cx cy r s1
  | Geom.rect _ _ _ _, Geom.circle cx cy _ _ r => circleVsSegments cx cy r s1
  | Geom.poly, Geom.circle cx cy _ _ r => circleVsSegments cx cy r s1
  | Geom.circle ax ay _ _ r1, Geom.circle bx by2 _ _ r2 =>
    circleCircleIntersection ax ay r1 bx by2 r2
  | _, _ =>
    ((getShapeLines s1).map fun l1 =>
      ((getShapeLines s2).map fun l2 => getLineLineIntersection l1 l2).flatten).flatten

/-! ## `drawing_canvas.py` — canvas state -/

/-- Values stored by `push_property_change` / applied back by `setattr`. -/
inductive PropVal
  | str (s : String)
  | num (r : ℝ)
  | sty (o : Option (ℝ × ℝ))

/-- Undo/redo stack entries (the `{"type": ...}` dictionaries). -/
inductive Op
  | addShape (i : Nat)
  | deleteShape (i : Nat)
  | deleteShapes (ids : List Nat) (indices : List Nat)
  | moveOp (i : Nat) (origX1 origY1 newX1 newY1 : ℝ)
  | resizeOp (i : Nat) (origX1 origY1 origX2 origY2 newX1 newY1 newX2 newY2 : ℝ)
  | changeProperty (name : String) (oldVal newVal : PropVal)

/-- `DrawingCanvas` state.  Shape objects live in `heap`; `shapes` and
`selectedShapes` hold object identities.  Stacks are modelled top-first. -/
structure Canvas where
  heap : List (Nat × Shape)
  nextId : Nat
  shapes : List Nat
  currentPoints : List (ℝ × ℝ)
  mode : String
  currentColor : String
  currentWidth : ℝ
  currentStyle : Option (ℝ × ℝ)
  selectedShapes : List Nat
  selectedEndpoint : Option Nat
  isMoving : Bool
  isResizing : Bool
  resizeHandle : Option String
  lastX : Option ℝ
  lastY : Option ℝ
  undoStack : List Op
  redoStack : List Op
  snapEnabled : Bool
  snapDistance : ℝ
  snapEndpoint : Bool
  snapMidpoint : Bool
  snapIntersection : Bool

/-- `DrawingCanvas.MIN_SIZE`. -/
def MIN_SIZE : ℝ := 10

/-- `DrawingCanvas.__init__` field values. -/
def initCanvas : Canvas :=
  { heap := [], nextId := 0, shapes := [], currentPoints := [], mode := "line"
    currentColor := "black", currentWidth := 1, currentStyle := none
    selectedShapes := [], selectedEndpoint := none, isMoving := false
    isResizing := false, resizeHandle := none, lastX := none, lastY := none
    undoStack := [], redoStack := [], snapEnabled := true, snapDistance := 10
    snapEndpoint := true, snapMidpoint := true, snapIntersection := true }

/-- The shape objects of `self.shapes`, in order. -/
def resolveShapes (c : Canvas) : List Shape :=
  c.shapes.filterMap (heapLookup c.heap)

/-! ## `drawing_canvas.py` — snap engine -/

/-- Midpoints of the cyclically consecutive vertex pairs
(the `points[i]`, `points[(i+1) % n]` loops). -/
noncomputable def cyclicMidpoints (pts : List (ℝ × ℝ)) : List (ℝ × ℝ) :=
  pts.zipWith (fun p q => ((p.1 + q.1) / 2, (p.2 + q.2) / 2)) (pts.rotate 1)

/-- Per-shape snap candidates of `get_snap_point` (endpoints and midpoints,
gated by the enabled snap kinds). -/
noncomputable def snapCandidatesOfShape (c : Canvas) (s : Shape) : List (ℝ × ℝ) :=
  match s.geom with
  | Geom.line x1 y1 x2 y2 =>
    (if c.snapEndpoint then [(x1, y1), (x2, y2)] else []) ++
      (if c.snapMidpoint then [((x1 + x2) / 2, (y1 + y2) / 2)] else [])
  | Geom.rect x1 y1 x2 y2 =>
    let pts := [(x1, y1), (x2, y1), (x2, y2), (x1, y2)]
    (if c.snapEndpoint then pts else []) ++
      (if c.snapMidpoint then cyclicMidpoints pts else [])
  | Geom.circle cx cy _ _ _ => if c.snapEndpoint then [(cx, cy)] else []
  | Geom.poly =>
    (if c.snapEndpoint then s.points else []) ++
      (if c.snapMidpoint then cyclicMidpoints s.points else [])

/-- The `for i, shape1 in enumerate(...): for shape2 in shapes[i+1:]` pairwise
intersection sweep. -/
noncomputable def pairIntersections : List Shape → List (ℝ × ℝ)
  | [] => []
  | s :: rest => (rest.map (getIntersectionPoints s)).flatten ++ pairIntersections rest

/-- The full snap candidate list of `get_snap_point`. -/
noncomputable def snapCandidates (c : Canvas) : List (ℝ × ℝ) :=
  ((resolveShapes c).map (snapCandidatesOfShape c)).flatten ++
    (if c.snapIntersection then pairIntersections (resolveShapes c) else [])

/-- Pointer-to-candidate distance (`((x-px)**2 + (y-py)**2) ** 0.5`). -/
noncomputable def snapDistTo (x y : ℝ) (p : ℝ × ℝ) : ℝ :=
  Real.sqrt ((x - p.1) ^ 2 + (y - p.2) ^ 2)

/-- The closest-candidate loop of `get_snap_point`.  `min_distance` starts at
infinity, modelled by the `none` accumulator; a candidate is taken when it is
strictly closer than the best so far and within the 10 px threshold. -/
noncomputable def snapLoop (x y : ℝ) :
    List (ℝ × ℝ) → Option ((ℝ × ℝ) × ℝ) → Option ((ℝ × ℝ) × ℝ)
  | [], best => best
  | p :: rest, best =>
    let d := snapDistTo x y p
    match best with
    | none =>
      if d ≤ 10 then snapLoop x y rest (some (p, d)) else snapLoop x y rest none
    | some (q, m) =>
      if d < m ∧ d ≤ 10 then snapLoop x y rest (some (p, d))
      else snapLoop x y rest (some (q, m))

/-- `get_snap_point(x, y)`. -/
noncomputable def getSnapPoint (c : Canvas) (x y : ℝ) : ℝ × ℝ :=
  if c.snapEnabled then
    match snapLoop x y (snapCandidates c) none with
    | some (p, _) => p
    | none => (x, y)
  else (x, y)

/-! ## `drawing_canvas.py` — resize handles -/

/-- `get_resize_handles`: the eight named handles of a selected rectangle, in
dictionary insertion order. -/
noncomputable def getResizeHandles (c : Canvas) : List (String × (ℝ × ℝ)) :=
  match c.selectedShapes with
  | [] => []
  | i :: _ =>
    match heapLookup c.heap i with
    | some s =>
      match s.geom with
      | Geom.rect x1 y1 x2 y2 =>
        [("nw", (x1, y1)), ("n", (x1 + (x2 - x1) / 2, y1)), ("ne", (x2, y1)),
         ("e", (x2, y1 + (y2 - y1) / 2)), ("se", (x2, y2)),
         ("s", (x1 + (x2 - x1) / 2, y2)), ("sw", (x1, y2)),
         ("w", (x1, y1 + (y2 - y1) / 2))]
      | _ => []
    | none => []

/-- The handle-scan loop of `get_resize_handle_at_point`. -/
noncomputable def findHandle (x y : ℝ) : List (String × (ℝ × ℝ)) → Option String
  | [] => none
  | (name, (hx, hy)) :: rest =>
    if |x - hx| ≤ 5 ∧ |y - hy| ≤ 5 then some name else findHandle x y rest

/-- `get_resize_handle_at_point(x, y)`. -/
noncomputable def getResizeHandleAtPoint (c : Canvas) (x y : ℝ) : Option String :=
  findHandle x y (getResizeHandles c)

/-! ## `drawing_canvas.py` — editing operations -/

/-- `list.insert(i, x)` (Python semantics for `i ≤ len`). -/
def insertAt {α : Type} (l : List α) (i : Nat) (a : α) : List α :=
  l.take i ++ a :: l.drop i

/-- `list.index(x)` (the call sites guarantee membership). -/
def idxOf (i : Nat) : List Nat → Nat
  | [] => 0
  | j :: rest => if j = i then 0 else idxOf i rest + 1

/-- Append a freshly created shape object and record its identity
(`self.shapes.append(shape)`). -/
def allocShape (c : Canvas) (s : Shape) : Canvas :=
  { c with heap := c.heap ++ [(c.nextId, s)]
           shapes := c.shapes ++ [c.nextId]
           nextId := c.nextId + 1 }

/-- Shared commit tail of `on_click` / `complete_shape`: append the shape, push
one `add_shape` undo entry, clear the redo stack, reset `current_points`. -/
def commitShape (c : Canvas) (s : Shape) : Canvas :=
  let c1 := allocShape c s
  { c1 with undoStack := Op.addShape c.nextId :: c.undoStack
            redoStack := []
            currentPoints := [] }

/-- `on_click(event)`: resize-handle grab for a selected rectangle, else the
mode-dependent drawing gesture. -/
noncomputable def onClick (c : Canvas) (x y : ℝ) : Canvas :=
  let snap := getSnapPoint c x y
  let handleHit : Option String :=
    match c.selectedShapes with
    | i :: _ =>
      match heapLookup c.heap i with
      | some s =>
        match s.geom with
        | Geom.rect _ _ _ _ => getResizeHandleAtPoint c x y
        | _ => none
      | none => none
    | [] => none
  match handleHit with
  | some h =>
    { c with isResizing := true, resizeHandle := some h, lastX := some x, lastY := some y }
  | none =>
    if c.mode = "line" then
      match c.currentPoints with
      | [] => { c with currentPoints := [snap] }
      | (x1, y1) :: _ =>
        commitShape c (mkLine x1 y1 snap.1 snap.2 c.currentColor c.currentWidth c.currentStyle)
    else if c.mode = "rectangle" then
      match c.currentPoints with
      | [] => { c with currentPoints := [snap] }
      | (x1, y1) :: _ =>
        commitShape c
          (mkRectangle x1 y1 snap.1 snap.2 c.currentColor c.currentWidth c.currentStyle)
    else if c.mode = "circle" then
      match c.currentPoints with
      | [] => { c with currentPoints := [snap] }
      | (x1, y1) :: _ =>
        commitShape c (mkCircle x1 y1 snap.1 snap.2 c.currentColor c.currentWidth c.currentStyle)
    else if c.mode = "polygon" then
      { c with currentPoints := c.currentPoints ++ [snap] }
    else c

/-- `complete_shape`: commit the accumulated points as a finished shape (modes
and point counts as in the source); always reset `current_points`. -/
noncomputable def completeShape (c : Canvas) : Canvas :=
  match c.currentPoints with
  | [] => c
  | _ =>
    if c.mode = "line" ∧ c.currentPoints.length = 2 then
      match c.currentPoints with
      | (x1, y1) :: (x2, y2) :: _ =>
        commitShape c (mkLine x1 y1 x2 y2 c.currentColor c.currentWidth c.currentStyle)
      | _ => { c with currentPoints := [] }
    else if c.mode = "rectangle" ∧ c.currentPoints.length = 2 then
      match c.currentPoints with
      | (x1, y1) :: (x2, y2) :: _ =>
        commitShape c (mkRectangle x1 y1 x2 y2 c.currentColor c.currentWidth c.currentStyle)
      | _ => { c with currentPoints := [] }
    else if c.mode = "circle" ∧ c.currentPoints.length = 2 then
      match c.currentPoints with
      | (x1, y1) :: (x2, y2) :: _ =>
        commitShape c (mkCircle x1 y1 x2 y2 c.currentColor c.currentWidth c.currentStyle)
      | _ => { c with currentPoints := [] }
    else if c.mode = "polygon" ∧ 3 ≤ c.currentPoints.length then
      commitShape c (mkPolygon c.currentPoints c.currentColor c.currentWidth c.currentStyle)
    else { c with currentPoints := [] }

/-- `on_right_click(event)`: polygon completion with at least three vertices. -/
noncomputable def onRightClick (c : Canvas) : Canvas :=
  if c.mode = "polygon" ∧ 3 ≤ c.currentPoints.length then completeShape c else c

/-- The per-shape update of `move_shape` when the first selected shape is a
`Rectangle` (applied to every selected shape). -/
def rectShift (dx dy : ℝ) (s : Shape) : Shape :=
  let s1 := (((s.setX1 (s.getX1 + dx)).setY1 (s.getY1 + dy)).setX2
    (s.getX2 + dx)).setY2 (s.getY2 + dy)
  s1.setPoints [(s1.getX1, s1.getY1), (s1.getX2, s1.getY1),
    (s1.getX2, s1.getY2), (s1.getX1, s1.getY2)]

/-- The per-shape update of `move_shape` when the first selected shape is a
`Line`. -/
def lineShift (dx dy : ℝ) (s : Shape) : Shape :=
  let s1 := (((s.setX1 (s.getX1 + dx)).setY1 (s.getY1 + dy)).setX2
    (s.getX2 + dx)).setY2 (s.getY2 + dy)
  s1.setPoints [(s1.getX1, s1.getY1), (s1.getX2, s1.getY2)]

/-- The per-shape update of `move_shape` when the first selected shape is a
`Circle` (`center_x`, `center_y`, `x2`, `y2` shifted; radius untouched). -/
def circleShift (dx dy : ℝ) (s : Shape) : Shape :=
  match s.geom with
  | Geom.circle cx cy x2 y2 r =>
    { s with geom := Geom.circle (cx + dx) (cy + dy) (x2 + dx) (y2 + dy) r
             points := [(cx + dx, cy + dy), (x2 + dx, y2 + dy)] }
  | _ => s

/-- The per-shape update of `move_shape` when the first selected shape is a
`Polygon`. -/
def polyShift (dx dy : ℝ) (s : Shape) : Shape :=
  s.setPoints (s.points.map fun p => (p.1 + dx, p.2 + dy))

/-- `move_shape(dx, dy)`: dispatch on the type of the *first* selected shape
and apply that update to every selected shape. -/
def moveShape (c : Canvas) (dx dy : ℝ) : Canvas :=
  match c.selectedShapes with
  | [] => c
  | i :: _ =>
    match heapLookup c.heap i with
    | none => c
    | some s =>
      match s.geom with
      | Geom.line _ _ _ _ =>
        { c with heap := foldUpd c.heap c.selectedShapes (lineShift dx dy) }
      | Geom.rect _ _ _ _ =>
        { c with heap := foldUpd c.heap c.selectedShapes (rectShift dx dy) }
      | Geom.circle _ _ _ _ _ =>
        { c with heap := foldUpd c.heap c.selectedShapes (circleShift dx dy) }
      | Geom.poly =>
        { c with heap := foldUpd c.heap c.selectedShapes (polyShift dx dy) }

/-- The handle application step of `resize_shape`: handle names containing
`"n"`, `"s"`, `"w"`, `"e"` overwrite `y1`, `y2`, `x1`, `x2` with the snapped
pointer coordinate (the Python substring tests are on single characters, so
they are character membership in the handle name). -/
def applyHandle (handle : String) (sx sy : ℝ) (s : Shape) : Shape :=
  let s1 := if 'n' ∈ handle.data then s.setY1 sy else s
  let s2 := if 's' ∈ handle.data then s1.setY2 sy else s1
  let s3 := if 'w' ∈ handle.data then s2.setX1 sx else s2
  if 'e' ∈ handle.data then s3.setX2 sx else s3

/-- The rollback step of `resize_shape`: restore all four coordinates of the
first selected shape. -/
def restoreCoords (ox1 oy1 ox2 oy2 : ℝ) (s : Shape) : Shape :=
  (((s.setX1 ox1).setY1 oy1).setX2 ox2).setY2 oy2

/-- The `points` refresh after an accepted resize. -/
def refreshRectPoints (s : Shape) : Shape :=
  s.setPoints [(s.getX1, s.getY1), (s.getX2, s.getY1), (s.getX2, s.getY2), (s.getX1, s.getY2)]

/-- `resize_shape(x, y)`: snap the pointer, overwrite the handle-designated
coordinates of every selected shape, then either roll the step back (result
below `MIN_SIZE` in width or height) or refresh the `points` lists. -/
noncomputable def resizeShape (c : Canvas) (x y : ℝ) : Canvas :=
  match c.selectedShapes with
  | [] => c
  | i :: _ =>
    match heapLookup c.heap i with
    | none => c
    | some s0 =>
      let ox1 := s0.getX1
      let oy1 := s0.getY1
      let ox2 := s0.getX2
      let oy2 := s0.getY2
      let snap := getSnapPoint c x y
      let handle := c.resizeHandle.getD ""
      let h1 := foldUpd c.heap c.selectedShapes (applyHandle handle snap.1 snap.2)
      match heapLookup h1 i with
      | none => c
      | some s1 =>
        let w := |s1.getX2 - s1.getX1|
        let ht := |s1.getY2 - s1.getY1|
        if w < MIN_SIZE ∨ ht < MIN_SIZE then
          { c with heap := foldUpd h1 c.selectedShapes (restoreCoords ox1 oy1 ox2 oy2) }
        else
          { c with heap := foldUpd h1 c.selectedShapes refreshRectPoints }

/-- The endpoint-drag branch of `on_drag`: set the grabbed endpoint of every
selected shape to the raw pointer position and refresh the two-point lists. -/
def dragEndpoint (e : Nat) (x y : ℝ) (s : Shape) : Shape :=
  let s1 := if e = 0 then (s.setX1 x).setY1 y else (s.setX2 x).setY2 y
  s1.setPoints [(s1.getX1, s1.getY1), (s1.getX2, s1.getY2)]

/-- `on_drag(event)`. -/
noncomputable def onDrag (c : Canvas) (x y : ℝ) : Canvas :=
  match c.selectedShapes with
  | [] => c
  | i :: _ =>
    let c1 :=
      match c.lastX, c.lastY with
      | some lx, some ly =>
        let dx := x - lx
        let dy := y - ly
        let headIsRect :=
          match (heapLookup c.heap i).map Shape.geom with
          | some (Geom.rect _ _ _ _) => true
          | _ => false
        let headIsLine :=
          match (heapLookup c.heap i).map Shape.geom with
          | some (Geom.line _ _ _ _) => true
          | _ => false
        if c.isResizing ∧ headIsRect = true then resizeShape c x y
        else if headIsLine = true ∧ c.selectedEndpoint.isSome then
          { c with heap :=
              foldUpd c.heap c.selectedShapes (dragEndpoint (c.selectedEndpoint.getD 0) x y) }
        else moveShape c dx dy
      | _, _ => c
    { c1 with lastX := some x, lastY := some y }

/-- `on_release(event)`. -/
def onRelease (c : Canvas) : Canvas :=
  { c with isMoving := false, isResizing := false, resizeHandle := none
           lastX := none, lastY := none }

/-- `move_shape_by(shape, dx, dy)` (undo/redo helper): dispatch on the shape's
own type. -/
def moveShapeBy (c : Canvas) (i : Nat) (dx dy : ℝ) : Canvas :=
  match (heapLookup c.heap i).map Shape.geom with
  | some (Geom.line _ _ _ _) => { c with heap := heapUpd c.heap i (lineShift dx dy) }
  | some (Geom.rect _ _ _ _) => { c with heap := heapUpd c.heap i (rectShift dx dy) }
  | some (Geom.circle _ _ _ _ _) => { c with heap := heapUpd c.heap i (circleShift dx dy) }
  | some Geom.poly => { c with heap := heapUpd c.heap i (polyShift dx dy) }
  | none => c

/-- `setattr(self, name, value)` for the properties recorded by
`push_property_change` (`set_color` / `set_width` / `set_style`). -/
def setProp (c : Canvas) (name : String) (v : PropVal) : Canvas :=
  if name = "current_color" then
    match v with
    | PropVal.str s => { c with currentColor := s }
    | _ => c
  else if name = "current_width" then
    match v with
    | PropVal.num r => { c with currentWidth := r }
    | _ => c
  else if name = "current_style" then
    match v with
    | PropVal.sty o => { c with currentStyle := o }
    | _ => c
  else c

/-- Reinsertion loop of undoing a `delete_shapes` entry: restore each shape at
its recorded index when still in range, else append. -/
def reinsertShapes (shapes : List Nat) : List (Nat × Nat) → List Nat
  | [] => shapes
  | (idx, i) :: rest =>
    reinsertShapes (if idx < shapes.length then insertAt shapes idx i else shapes ++ [i]) rest

/-- The `resize_shape` entry replay: write the four recorded coordinates and
refresh `points`. -/
def applyResizeRecord (x1 y1 x2 y2 : ℝ) (s : Shape) : Shape :=
  refreshRectPoints (restoreCoords x1 y1 x2 y2 s)

/-- `undo()`: pop the top entry, transfer it to the redo stack, and apply its
inverse. -/
def undo (c : Canvas) : Canvas :=
  match c.undoStack with
  | [] => c
  | op :: rest =>
    let c1 := { c with undoStack := rest, redoStack := op :: c.redoStack }
    match op with
    | Op.addShape i => { c1 with shapes := c1.shapes.erase i }
    | Op.deleteShape i => { c1 with shapes := c1.shapes ++ [i] }
    | Op.deleteShapes ids idxs =>
      { c1 with shapes := reinsertShapes c1.shapes (idxs.zip ids) }
    | Op.moveOp i ox1 oy1 _ _ =>
      let cur := (heapLookup c1.heap i).getD (mkLine 0 0 0 0 "black" 1 none)
      moveShapeBy c1 i (ox1 - cur.getX1) (oy1 - cur.getY1)
    | Op.resizeOp i ox1 oy1 ox2 oy2 _ _ _ _ =>
      { c1 with heap := heapUpd c1.heap i (applyResizeRecord ox1 oy1 ox2 oy2) }
    | Op.changeProperty name oldVal _ => setProp c1 name oldVal

/-- `redo()`: pop the top redo entry, transfer it back to the undo stack, and
re-apply the forward operation. -/
def redo (c : Canvas) : Canvas :=
  match c.redoStack with
  | [] => c
  | op :: rest =>
    let c1 := { c with redoStack := rest, undoStack := op :: c.undoStack }
    match op with
    | Op.addShape i => { c1 with shapes := c1.shapes ++ [i] }
    | Op.deleteShape i => { c1 with shapes := c1.shapes.erase i }
    | Op.deleteShapes ids _ =>
      { c1 with shapes := ids.foldl (fun acc i => acc.erase i) c1.shapes }
    | Op.moveOp i _ _ nx1 ny1 =>
      let cur := (heapLookup c1.heap i).getD (mkLine 0 0 0 0 "black" 1 none)
      moveShapeBy c1 i (nx1 - cur.getX1) (ny1 - cur.getY1)
    | Op.resizeOp i _ _ _ _ nx1 ny1 nx2 ny2 =>
      { c1 with heap := heapUpd c1.heap i (applyResizeRecord nx1 ny1 nx2 ny2) }
    | Op.changeProperty name _ newVal => setProp c1 name newVal

/-- `push_state()`: clears the redo stack only (the docstring defers actual
recording to the caller, and `duplicate_selected` records nothing). -/
def pushState (c : Canvas) : Canvas :=
  { c with redoStack := [] }

/-- `push_property_change(name, old, new)`. -/
def pushPropertyChange (c : Canvas) (name : String) (oldVal newVal : PropVal) : Canvas :=
  { c with undoStack := Op.changeProperty name oldVal newVal :: c.undoStack
           redoStack := [] }

/-- `delete_selected()`: record one batched `delete_shapes` entry, remove the
shapes, clear the selection, clear the redo stack. -/
def deleteSelected (c : Canvas) : Canvas :=
  match c.selectedShapes with
  | [] => c
  | _ =>
    let deleted := c.selectedShapes
    let indices := deleted.map (fun i => idxOf i c.shapes)
    { c with undoStack := Op.deleteShapes deleted indices :: c.undoStack
             shapes := deleted.foldl (fun acc i => acc.erase i) c.shapes
             selectedShapes := []
             redoStack := [] }

/-- The per-shape copy made by `duplicate_selected` (offset +20 px each axis;
a circle is rebuilt from its shifted center and `center + radius` on the x
axis). -/
noncomputable def duplicateOf (s : Shape) : Shape :=
  match s.geom with
  | Geom.line x1 y1 x2 y2 =>
    mkLine (x1 + 20) (y1 + 20) (x2 + 20) (y2 + 20) s.color s.width s.style
  | Geom.rect x1 y1 x2 y2 =>
    mkRectangle (x1 + 20) (y1 + 20) (x2 + 20) (y2 + 20) s.color s.width s.style
  | Geom.circle cx cy _ _ r =>
    mkCircle (cx + 20) (cy + 20) (cx + 20 + r) (cy + 20) s.color s.width s.style
  | Geom.poly =>
    mkPolygon (s.points.map fun p => (p.1 + 20, p.2 + 20)) s.color s.width s.style

/-- One iteration of the copy loop of `duplicate_selected`: materialize the
offset copy and remember its identity in `new_shapes`. -/
noncomputable def dupStep (acc : Canvas × List Nat) (i : Nat) : Canvas × List Nat :=
  match heapLookup acc.1.heap i with
  | none => acc
  | some s => (allocShape acc.1 (duplicateOf s), acc.2 ++ [acc.1.nextId])

/-- `duplicate_selected()`: `push_state` (redo cleared, nothing recorded), copy
each selected shape with the +20/+20 offset, then select exactly the copies. -/
noncomputable def duplicateSelected (c : Canvas) : Canvas :=
  match c.selectedShapes with
  | [] => c
  | _ =>
    let selected := c.selectedShapes
    let c1 := pushState c
    let c2 := selected.foldl dupStep (c1, ([] : List Nat))
    let c3 := c2.1
    -- the source then removes the old shapes from `selected_shapes` one by one,
    -- but immediately rebinds `self.selected_shapes = new_shapes`, so only the
    -- rebinding is observable
    { c3 with selectedShapes := c2.2 }

/-- `select_all()`: clear the flags of the old selection, then select every
shape and set every flag. -/
def selectAll (c : Canvas) : Canvas :=
  match c.shapes with
  | [] => c
  | _ =>
    let h1 := foldUpd c.heap c.selectedShapes (fun s => { s with isSelected := false })
    let h2 := foldUpd h1 c.shapes (fun s => { s with isSelected := true })
    { c with heap := h2, selectedShapes := c.shapes }

/-! ## Statement helpers -/

/-- Repeated application of `move` (an arbitrary sequence of user moves). -/
noncomputable def applyMoves (a : Ann) (moves : List (ℝ × ℝ)) : Ann :=
  moves.foldl (fun acc m => annMove acc m.1 m.2) a

/-- The `is_horizontal` flag of a line annotation. -/
def annIsHorizontal (a : Ann) : Bool :=
  match a.data with
  | AnnData.line _ _ h => h
  | _ => false

/-- The `start` point of a line annotation. -/
def annStart (a : Ann) : Pt :=
  match a.data with
  | AnnData.line s _ _ => s
  | _ => ⟨0, 0⟩

/-- The `end` point of a line annotation. -/
def annStop (a : Ann) : Pt :=
  match a.data with
  | AnnData.line _ e _ => e
  | _ => ⟨0, 0⟩

theorem applyMoves_line (moves : List (ℝ × ℝ)) :
    ∀ (s e : Pt) (hz : Bool) (color : String) (w : ℝ) (sel : Bool),
      ∃ s2 e2 : Pt,
        applyMoves ⟨AnnData.line s e hz, color, w, sel⟩ moves =
          ⟨AnnData.line s2 e2 hz, color, w, sel⟩ := by
  induction moves with
  | nil =>
    intro s e hz color w sel
    exact ⟨s, e, rfl⟩
  | cons m rest ih =>
    intro s e hz color w sel
    have step : applyMoves (⟨AnnData.line s e hz, color, w, sel⟩ : Ann) (m :: rest) =
        applyMoves (annMove ⟨AnnData.line s e hz, color, w, sel⟩ m.1 m.2) rest := rfl
    rw [step]
    cases hz with
    | true =>
      simpa [annMove] using
        ih ⟨s.x + m.1, s.y + m.2⟩ ⟨e.x + m.1, s.y + m.2⟩ true color w sel
    | false =>
      simpa [annMove] using
        ih ⟨s.x + m.1, s.y + m.2⟩ ⟨e.x + m.1, e.y + m.2⟩ false color w sel

/-! ## Claim C8 -/

/-- C8: a line annotation created with `|start.y - end.y| < 2` is flagged
horizontal; the flag never changes under any sequence of moves, and after every
further move the line is exactly horizontal (`end.y = start.y`). -/
theorem c8_horizontal_line_sticky (s e : Pt) (color : String) (w : ℝ)
    (moves : List (ℝ × ℝ)) (dx dy : ℝ) (h : |s.y - e.y| < 2) :
    annIsHorizontal (applyMoves (mkLineAnn s e color w) moves) = true ∧
    (annStop (annMove (applyMoves (mkLineAnn s e color w) moves) dx dy)).y =
      (annStart (annMove (applyMoves (mkLineAnn s e color w) moves) dx dy)).y := by
  have hflag : decide (|s.y - e.y| < 2) = true := decide_eq_true h
  have hmk : mkLineAnn s e color w =
      ⟨AnnData.line s e true, color, w, false⟩ := by
    simp [mkLineAnn, hflag]
  obtain ⟨s2, e2, h2⟩ := applyMoves_line moves s e true color w false
  rw [hmk, h2]
  refine ⟨rfl, ?_⟩
  simp [annMove, annStart, annStop]

/-- C8 witness: a concrete near-horizontal line, one intermediate move, one
further move. -/
theorem c8_horizontal_line_sticky_witness :
    annIsHorizontal
        (applyMoves (mkLineAnn ⟨0, 0⟩ ⟨10, 1⟩ "black" 1) [(3, 4)]) = true ∧
    (annStop (annMove
        (applyMoves (mkLineAnn ⟨0, 0⟩ ⟨10, 1⟩ "black" 1) [(3, 4)]) 5 7)).y =
      (annStart (annMove
        (applyMoves (mkLineAnn ⟨0, 0⟩ ⟨10, 1⟩ "black" 1) [(3, 4)]) 5 7)).y :=
  c8_horizontal_line_sticky ⟨0, 0⟩ ⟨10, 1⟩ "black" 1 [(3, 4)] 5 7 (by norm_num)

/-! ## Claim C9 -/

/-- C9: bounding-box containment is monotone in the threshold. -/
theorem c9_contains_monotone (b : BoundingBox) (p : Pt) (t1 t2 : ℝ)
    (hbx : b.minPoint.x ≤ b.maxPoint.x) (hby : b.minPoint.y ≤ b.maxPoint.y)
    (ht : t1 ≤ t2) (h : b.containsPoint p t1 = true) :
    b.containsPoint p t2 = true := by
  unfold BoundingBox.containsPoint at h ⊢
  by_cases hin : b.minPoint.x ≤ p.x ∧ p.x ≤ b.maxPoint.x ∧
      b.minPoint.y ≤ p.y ∧ p.y ≤ b.maxPoint.y
  · rw [if_pos hin]
  · rw [if_neg hin] at h ⊢
    have h' := of_decide_eq_true h
    exact decide_eq_true (le_trans h' ht)

/-- C9 witness: the unit case of the monotonicity theorem. -/
theorem c9_contains_monotone_witness :
    BoundingBox.containsPoint ⟨⟨0, 0⟩, ⟨10, 10⟩⟩ ⟨5, 5⟩ 1 = true :=
  c9_contains_monotone ⟨⟨0, 0⟩, ⟨10, 10⟩⟩ ⟨5, 5⟩ 0 1 (by norm_num) (by norm_num)
    (by norm_num)
    (by unfold BoundingBox.containsPoint
        rw [if_pos]
        norm_num)

/-! ## Claim C5 -/

/-- C5 counterexample: `Rectangle(200, 100, 100, 200)` does not keep its raw
first corner `(200, 100)` — storage normalizes to `x1 = 100`. -/
theorem c5_counterexample :
    ¬ ((mkRectangle 200 100 100 200 "black" 1 none).getX1 = 200 ∧
       (mkRectangle 200 100 100 200 "black" 1 none).getY1 = 100) := by
  intro hc
  have h1 : (mkRectangle 200 100 100 200 "black" 1 none).getX1 = 100 := by
    simp [mkRectangle, Shape.getX1]
    norm_num
  rw [hc.1] at h1
  norm_num at h1

/-- C5 amended: the constructor stores the min/max-normalized corners (so
`x1 ≤ x2`, `y1 ≤ y2` always holds at storage, and raw corners are kept exactly
when already ordered), and the derived corner list is that normalized box. -/
theorem c5_rectangle_normalized (x1 y1 x2 y2 : ℝ) (color : String) (w : ℝ)
    (st : Option (ℝ × ℝ)) :
    (mkRectangle x1 y1 x2 y2 color w st).getX1 = min x1 x2 ∧
    (mkRectangle x1 y1 x2 y2 color w st).getY1 = min y1 y2 ∧
    (mkRectangle x1 y1 x2 y2 color w st).getX2 = max x1 x2 ∧
    (mkRectangle x1 y1 x2 y2 color w st).getY2 = max y1 y2 ∧
    (mkRectangle x1 y1 x2 y2 color w st).points =
      [(min x1 x2, min y1 y2), (max x1 x2, min y1 y2),
       (max x1 x2, max y1 y2), (min x1 x2, max y1 y2)] ∧
    (mkRectangle x1 y1 x2 y2 color w st).getX1 ≤ (mkRectangle x1 y1 x2 y2 color w st).getX2 ∧
    (mkRectangle x1 y1 x2 y2 color w st).getY1 ≤ (mkRectangle x1 y1 x2 y2 color w st).getY2 := by
  refine ⟨rfl, rfl, rfl, rfl, rfl, ?_, ?_⟩
  · show min x1 x2 ≤ max x1 x2
    exact min_le_max
  · show min y1 y2 ≤ max y1 y2
    exact min_le_max

/-! ## Claim C1 -/

theorem moveShape_stacks (c : Canvas) (dx dy : ℝ) :
    (moveShape c dx dy).undoStack = c.undoStack ∧
    (moveShape c dx dy).redoStack = c.redoStack := by
  unfold moveShape
  repeat' split
  all_goals exact ⟨rfl, rfl⟩

theorem resizeShape_stacks (c : Canvas) (x y : ℝ) :
    (resizeShape c x y).undoStack = c.undoStack ∧
    (resizeShape c x y).redoStack = c.redoStack := by
  dsimp only [resizeShape]
  repeat' split
  all_goals exact ⟨rfl, rfl⟩

theorem onDrag_stacks (c : Canvas) (x y : ℝ) :
    (onDrag c x y).undoStack = c.undoStack ∧
    (onDrag c x y).redoStack = c.redoStack := by
  dsimp only [onDrag]
  repeat' split
  all_goals
    first
      | exact ⟨rfl, rfl⟩
      | exact resizeShape_stacks c x y
      | exact moveShape_stacks c _ _

theorem dupFold_stacks (l : List Nat) :
    ∀ acc : Canvas × List Nat,
      ((l.foldl dupStep acc).1).undoStack = acc.1.undoStack ∧
      ((l.foldl dupStep acc).1).redoStack = acc.1.redoStack := by
  induction l with
  | nil => intro acc; exact ⟨rfl, rfl⟩
  | cons i rest ih =>
    intro acc
    have step : (i :: rest).foldl dupStep acc = rest.foldl dupStep (dupStep acc i) := rfl
    rw [step]
    refine ⟨?_, ?_⟩
    · rw [(ih (dupStep acc i)).1]
      unfold dupStep
      split
      · rfl
      · rfl
    · rw [(ih (dupStep acc i)).2]
      unfold dupStep
      split
      · rfl
      · rfl

/-- C1 amended: shape adds (two-point commit and polygon completion), batch
delete, and property changes each push exactly one undo entry and clear the
redo stack; drag-moves and handle resizes push nothing and leave both stacks
untouched; Ctrl+D duplication pushes nothing but does clear the redo stack. -/
theorem c1_commit_undo_discipline :
    (∀ (c : Canvas) (x y : ℝ) (p : ℝ × ℝ) (rest : List (ℝ × ℝ)),
      c.selectedShapes = [] →
      (c.mode = "line" ∨ c.mode = "rectangle" ∨ c.mode = "circle") →
      c.currentPoints = p :: rest →
      (onClick c x y).undoStack = Op.addShape c.nextId :: c.undoStack ∧
        (onClick c x y).redoStack = []) ∧
    (∀ c : Canvas, c.mode = "polygon" → 3 ≤ c.currentPoints.length →
      (completeShape c).undoStack = Op.addShape c.nextId :: c.undoStack ∧
        (completeShape c).redoStack = []) ∧
    (∀ (c : Canvas) (i : Nat) (rest : List Nat), c.selectedShapes = i :: rest →
      (deleteSelected c).undoStack =
        Op.deleteShapes c.selectedShapes (c.selectedShapes.map fun j => idxOf j c.shapes) ::
          c.undoStack ∧
        (deleteSelected c).redoStack = []) ∧
    (∀ (c : Canvas) (name : String) (o n : PropVal),
      (pushPropertyChange c name o n).undoStack =
        Op.changeProperty name o n :: c.undoStack ∧
        (pushPropertyChange c name o n).redoStack = []) ∧
    (∀ (c : Canvas) (x y : ℝ),
      (onDrag c x y).undoStack = c.undoStack ∧
        (onDrag c x y).redoStack = c.redoStack) ∧
    (∀ (c : Canvas) (x y : ℝ),
      (resizeShape c x y).undoStack = c.undoStack ∧
        (resizeShape c x y).redoStack = c.redoStack) ∧
    (∀ (c : Canvas) (i : Nat) (rest : List Nat), c.selectedShapes = i :: rest →
      (duplicateSelected c).undoStack = c.undoStack ∧
        (duplicateSelected c).redoStack = []) := by
  refine ⟨?_, ?_, ?_, ?_, ?_, ?_, ?_⟩
  · intro c x y p rest hsel hmode hcp
    obtain ⟨px, py⟩ := p
    rcases hmode with hm | hm | hm <;> simp only [onClick, hsel, hcp, hm] <;>
      exact ⟨rfl, rfl⟩
  · intro c hm hlen
    cases hcp : c.currentPoints with
    | nil => rw [hcp] at hlen; simp at hlen
    | cons q qs =>
      rw [hcp] at hlen
      simp only [completeShape, hcp]
      rw [hm]
      rw [if_neg (fun hq => (by decide : ¬ ("polygon" : String) = "line") hq.1),
        if_neg (fun hq => (by decide : ¬ ("polygon" : String) = "rectangle") hq.1),
        if_neg (fun hq => (by decide : ¬ ("polygon" : String) = "circle") hq.1),
        if_pos ⟨rfl, hlen⟩]
      exact ⟨rfl, rfl⟩
  · intro c i rest hsel
    simp [deleteSelected, hsel]
  · intro c name o n
    exact ⟨rfl, rfl⟩
  · intro c x y
    exact onDrag_stacks c x y
  · intro c x y
    exact resizeShape_stacks c x y
  · intro c i rest hsel
    simp only [duplicateSelected, hsel]
    have h := dupFold_stacks (i :: rest) (pushState c, ([] : List Nat))
    exact ⟨h.1, h.2⟩

/-- The concrete drag state for the C1 counterexample: one selected rectangle,
mid-drag with a recorded previous pointer position. -/
def c1state : Canvas :=
  { initCanvas with
      heap := [(0, ⟨Geom.rect 100 100 200 200, "black", 1, none,
        [(100, 100), (200, 100), (200, 200), (100, 200)], false⟩)]
      nextId := 1
      shapes := [0]
      selectedShapes := [0]
      lastX := some 5
      lastY := some 5 }

/-- C1 counterexample: a committed drag-move step pushes no undo entry at all
(the claim demands exactly one). -/
theorem c1_counterexample :
    ¬ (onDrag c1state 12 13).undoStack.length = c1state.undoStack.length + 1 := by
  have h : (onDrag c1state 12 13).undoStack = [] := rfl
  have h0 : c1state.undoStack = [] := rfl
  rw [h, h0]
  simp

/-- C1 witness: the amended discipline at concrete states — a two-point line
commit pushes one `add` entry and clears redo, and a drag-move leaves the undo
stack untouched. -/
theorem c1_commit_undo_discipline_witness :
    (onClick { initCanvas with currentPoints := [(0, 0)] } 5 5).undoStack =
      [Op.addShape 0] ∧
    (onClick { initCanvas with currentPoints := [(0, 0)] } 5 5).redoStack = [] ∧
    (onDrag c1state 12 13).undoStack = c1state.undoStack := by
  have h := c1_commit_undo_discipline.1 { initCanvas with currentPoints := [(0, 0)] }
    5 5 (0, 0) [] rfl (Or.inl rfl) rfl
  have h2 := (c1_commit_undo_discipline.2.2.2.2.1 c1state 12 13).1
  exact ⟨h.1, h.2, h2⟩

/-! ## Claim C4 -/

/-- C4 amended: `delete_selected` empties the selection (so the subset
invariant holds after it) and `remove_annotation` preserves the subset
invariant, but undoing an `add` removes the shape from the collection while
leaving the selection untouched — so selected-but-absent shapes are reachable
(see the counterexample trace). -/
theorem c4_selection_subset :
    (∀ c : Canvas, (deleteSelected c).selectedShapes = []) ∧
    (∀ (m : Manager) (i : Nat), m.selected.Nodup →
      (∀ j ∈ m.selected, j ∈ m.annotations) →
      ∀ j ∈ (removeAnn m i).selected, j ∈ (removeAnn m i).annotations) ∧
    (∀ (c : Canvas) (i : Nat) (rest : List Op), c.undoStack = Op.addShape i :: rest →
      (undo c).selectedShapes = c.selectedShapes ∧ (undo c).shapes = c.shapes.erase i) := by
  refine ⟨?_, ?_, ?_⟩
  · intro c
    cases hsel : c.selectedShapes with
    | nil => simp [deleteSelected, hsel]
    | cons i rest => simp [deleteSelected, hsel]
  · intro m i hnd hsub j hj
    unfold removeAnn at hj ⊢
    by_cases hmem : i ∈ m.annotations
    · rw [if_pos hmem] at hj ⊢
      simp only at hj ⊢
      by_cases hisel : i ∈ m.selected
      · rw [if_pos hisel] at hj
        have hj2 := (List.Nodup.mem_erase_iff hnd).mp hj
        exact (List.mem_erase_of_ne hj2.1).mpr (hsub j hj2.2)
      · rw [if_neg hisel] at hj
        have hji : j ≠ i := fun hc => hisel (hc ▸ hj)
        exact (List.mem_erase_of_ne hji).mpr (hsub j hj)
    · rw [if_neg hmem] at hj ⊢
      exact hsub j hj
  · intro c i rest hstack
    simp [undo, hstack]

/-- Fresh canvas configured for rectangle drawing. -/
def c4zero : Canvas := { initCanvas with mode := "rectangle" }

/-- Reachable trace: draw a rectangle with two clicks, select everything, then
undo the add. -/
noncomputable def c4trace : Canvas :=
  undo (selectAll (onClick (onClick c4zero 0 0) 100 100))

/-- C4 counterexample: after the trace the shape is still selected but no
longer in the collection — the subset invariant is violated on a reachable
state. -/
theorem c4_counterexample :
    0 ∈ c4trace.selectedShapes ∧ 0 ∉ c4trace.shapes := by
  have h1 : c4trace.selectedShapes = [0] := rfl
  have h2 : c4trace.shapes = [] := rfl
  rw [h1, h2]
  simp

/-- Mid-undo state for the C4 witness: one selected shape whose `add` entry is
on top of the undo stack. -/
def c4undoState : Canvas :=
  { initCanvas with
      heap := [(0, ⟨Geom.rect 0 0 100 100, "black", 1, none,
        [(0, 0), (100, 0), (100, 100), (0, 100)], true⟩)]
      nextId := 1
      shapes := [0]
      selectedShapes := [0]
      undoStack := [Op.addShape 0] }

/-- C4 witness: the amended statement at concrete inputs. -/
theorem c4_selection_subset_witness :
    (deleteSelected c4undoState).selectedShapes = [] ∧
    (undo c4undoState).selectedShapes = c4undoState.selectedShapes ∧
    (undo c4undoState).shapes = c4undoState.shapes.erase 0 := by
  refine ⟨c4_selection_subset.1 c4undoState, ?_, ?_⟩
  · exact (c4_selection_subset.2.2 c4undoState 0 [] rfl).1
  · exact (c4_selection_subset.2.2 c4undoState 0 [] rfl).2

/-! ## Claim C2 -/

theorem snapLoop_none_of_far (x y : ℝ) (ps : List (ℝ × ℝ))
    (h : ∀ p ∈ ps, ¬ snapDistTo x y p ≤ 10) : snapLoop x y ps none = none := by
  induction ps with
  | nil => rfl
  | cons p rest ih =>
    have hp := h p (List.mem_cons_self p rest)
    simp only [snapLoop]
    rw [if_neg hp]
    exact ih fun q hq => h q (List.mem_cons_of_mem p hq)

/-- The rectangle of the C2/C3 resize scenario (corners (100,100)-(200,200)). -/
def c2rect : Shape :=
  ⟨Geom.rect 100 100 200 200, "black", 1, none,
    [(100, 100), (200, 100), (200, 200), (100, 200)], false⟩

/-- Mid-resize canvas: the rectangle drawn and selected, "se" handle grabbed. -/
def c2state : Canvas :=
  { initCanvas with
      heap := [(0, c2rect)], nextId := 1, shapes := [0], selectedShapes := [0]
      isResizing := true, resizeHandle := some "se" }

theorem c2_snap_eval : getSnapPoint c2state 50 50 = (50, 50) := by
  have hc : snapCandidates c2state =
      [(100, 100), (200, 100), (200, 200), (100, 200),
       ((100 + 200) / 2, (100 + 100) / 2), ((200 + 200) / 2, (100 + 200) / 2),
       ((200 + 100) / 2, (200 + 200) / 2), ((100 + 100) / 2, (200 + 100) / 2)] := by
    simp [snapCandidates, resolveShapes, c2state, c2rect, heapLookup, snapCandidatesOfShape,
      cyclicMidpoints, List.rotate_cons_succ, pairIntersections, initCanvas]
  have hfar : ∀ p ∈ snapCandidates c2state, ¬ snapDistTo 50 50 p ≤ 10 := by
    rw [hc]
    intro p hp
    fin_cases hp <;>
      · unfold snapDistTo
        apply not_sqrt_le_ten
        norm_num
  unfold getSnapPoint
  rw [if_pos (show c2state.snapEnabled = true from rfl),
    snapLoop_none_of_far 50 50 _ hfar]

/-- The stored rectangle after the "se" resize to (50,50): accepted with
inverted corners. -/
def c2result : Shape :=
  ⟨Geom.rect 100 100 50 50, "black", 1, none,
    [(100, 100), (50, 100), (50, 50), (100, 50)], false⟩

theorem c2_resize_eval :
    heapLookup (resizeShape c2state 50 50).heap 0 = some c2result := by
  have hne : ¬ (|(50 : ℝ) - 100| < MIN_SIZE ∨ |(50 : ℝ) - 100| < MIN_SIZE) := by
    have habs : |(50 : ℝ) - 100| = 50 := by
      rw [abs_sub_comm, abs_of_nonneg (by norm_num : (0 : ℝ) ≤ 100 - 50)]
      norm_num
    rw [habs]
    norm_num [MIN_SIZE]
  show heapLookup
      ((if |(getSnapPoint c2state 50 50).1 - 100| < MIN_SIZE ∨
           |(getSnapPoint c2state 50 50).2 - 100| < MIN_SIZE then
          { c2state with
              heap := (foldUpd (foldUpd c2state.heap [0] (applyHandle "se"
                (getSnapPoint c2state 50 50).1 (getSnapPoint c2state 50 50).2)) [0]
                (restoreCoords 100 100 200 200)) }
        else
          { c2state with
              heap := (foldUpd (foldUpd c2state.heap [0] (applyHandle "se"
                (getSnapPoint c2state 50 50).1 (getSnapPoint c2state 50 50).2)) [0]
                refreshRectPoints) } : Canvas)).heap 0 = some c2result
  rw [c2_snap_eval]
  rw [if_neg hne]
  rfl

/-- C2 counterexample: the "se" resize of (100,100)-(200,200) to pointer
(50,50) is *not* rejected — the stored coordinates come out inverted
(`x2 < x1`), falsifying `x1 ≤ x2 ∧ y1 ≤ y2` after the step. -/
theorem c2_counterexample :
    ∃ s : Shape, heapLookup (resizeShape c2state 50 50).heap 0 = some s ∧
      s.getX1 = 100 ∧ s.getX2 = 50 ∧ ¬ (s.getX1 ≤ s.getX2 ∧ s.getY1 ≤ s.getY2) := by
  refine ⟨c2result, c2_resize_eval, rfl, rfl, ?_⟩
  intro hc
  have h1 : c2result.getX1 = 100 := rfl
  have h2 : c2result.getX2 = 50 := rfl
  rw [h1, h2] at hc
  have := hc.1
  norm_num at this

/-- C2 amended: the step is accepted, because the MIN_SIZE floor is checked on
the absolute width/height only — the result keeps `|x2-x1|, |y2-y1| ≥ 10` but
has both corner orders inverted (`x2 < x1`, `y2 < y1`). -/
theorem c2_resize_inverted :
    ∃ s : Shape, heapLookup (resizeShape c2state 50 50).heap 0 = some s ∧
      s.getX1 = 100 ∧ s.getY1 = 100 ∧ s.getX2 = 50 ∧ s.getY2 = 50 ∧
      MIN_SIZE ≤ |s.getX2 - s.getX1| ∧ MIN_SIZE ≤ |s.getY2 - s.getY1| ∧
      s.getX2 < s.getX1 ∧ s.getY2 < s.getY1 := by
  have habs : |(50 : ℝ) - 100| = 50 := by
    rw [abs_sub_comm, abs_of_nonneg (by norm_num : (0 : ℝ) ≤ 100 - 50)]
    norm_num
  refine ⟨c2result, c2_resize_eval, rfl, rfl, rfl, rfl, ?_, ?_, ?_, ?_⟩
  · show MIN_SIZE ≤ |(50 : ℝ) - 100|
    rw [habs]
    norm_num [MIN_SIZE]
  · show MIN_SIZE ≤ |(50 : ℝ) - 100|
    rw [habs]
    norm_num [MIN_SIZE]
  · show (50 : ℝ) < 100
    norm_num
  · show (50 : ℝ) < 100
    norm_num

/-! ## Claim C3 -/

theorem applyHandle_idem (handle : String) (sx sy : ℝ) (s : Shape) :
    applyHandle handle sx sy (applyHandle handle sx sy s) = applyHandle handle sx sy s := by
  obtain ⟨g, color, w, st, pts, sel⟩ := s
  by_cases hn : 'n' ∈ handle.data <;> by_cases hs2 : 's' ∈ handle.data <;>
    by_cases hw : 'w' ∈ handle.data <;> by_cases he : 'e' ∈ handle.data <;>
    cases g <;>
    simp [applyHandle, hn, hs2, hw, he, Shape.setY1, Shape.setY2, Shape.setX1, Shape.setX2]

theorem restoreCoords_idem (a b d e : ℝ) (s : Shape) :
    restoreCoords a b d e (restoreCoords a b d e s) = restoreCoords a b d e s := by
  obtain ⟨g, color, w, st, pts, sel⟩ := s
  cases g <;> rfl

theorem restore_applyHandle (handle : String) (sx sy : ℝ) (g1 g2 g3 g4 : ℝ)
    (color : String) (w : ℝ) (st : Option (ℝ × ℝ)) (pts : List (ℝ × ℝ)) (sel : Bool) :
    restoreCoords g1 g2 g3 g4
        (applyHandle handle sx sy ⟨Geom.rect g1 g2 g3 g4, color, w, st, pts, sel⟩) =
      ⟨Geom.rect g1 g2 g3 g4, color, w, st, pts, sel⟩ := by
  by_cases hn : 'n' ∈ handle.data <;> by_cases hs2 : 's' ∈ handle.data <;>
    by_cases hw : 'w' ∈ handle.data <;> by_cases he : 'e' ∈ handle.data <;>
    simp [applyHandle, restoreCoords, hn, hs2, hw, he,
      Shape.setY1, Shape.setY2, Shape.setX1, Shape.setX2]

/-- C3: when the post-application width or height of the first selected
rectangle falls below MIN_SIZE, the whole resize step is rolled back — the
shape object is bit-identical to its pre-step state (all coordinates, the
`points` list, and every style field), and the shape/selection lists and both
undo/redo stacks are untouched. -/
theorem c3_resize_rollback (c : Canvas) (x y : ℝ) (i : Nat) (rest : List Nat) (s : Shape)
    (rx1 ry1 rx2 ry2 : ℝ)
    (hsel : c.selectedShapes = i :: rest)
    (hs : heapLookup c.heap i = some s)
    (hg : s.geom = Geom.rect rx1 ry1 rx2 ry2)
    (hreject :
      |(applyHandle (c.resizeHandle.getD "") (getSnapPoint c x y).1
          (getSnapPoint c x y).2 s).getX2 -
        (applyHandle (c.resizeHandle.getD "") (getSnapPoint c x y).1
          (getSnapPoint c x y).2 s).getX1| < MIN_SIZE ∨
      |(applyHandle (c.resizeHandle.getD "") (getSnapPoint c x y).1
          (getSnapPoint c x y).2 s).getY2 -
        (applyHandle (c.resizeHandle.getD "") (getSnapPoint c x y).1
          (getSnapPoint c x y).2 s).getY1| < MIN_SIZE) :
    heapLookup (resizeShape c x y).heap i = some s ∧
    (resizeShape c x y).shapes = c.shapes ∧
    (resizeShape c x y).selectedShapes = c.selectedShapes ∧
    (resizeShape c x y).undoStack = c.undoStack ∧
    (resizeShape c x y).redoStack = c.redoStack := by
  obtain ⟨g, color, w, st, pts, sel⟩ := s
  have hg2 : g = Geom.rect rx1 ry1 rx2 ry2 := hg
  subst hg2
  have happ : heapLookup (foldUpd c.heap (i :: rest)
      (applyHandle (c.resizeHandle.getD "") (getSnapPoint c x y).1 (getSnapPoint c x y).2)) i =
      some (applyHandle (c.resizeHandle.getD "") (getSnapPoint c x y).1 (getSnapPoint c x y).2
        ⟨Geom.rect rx1 ry1 rx2 ry2, color, w, st, pts, sel⟩) := by
    rw [heapLookup_foldUpd _ _ _ _ (applyHandle_idem _ _ _),
      if_pos (List.mem_cons_self i rest), hs]
    rfl
  unfold resizeShape
  rw [hsel]
  try simp only []
  rw [hs]
  try simp only []
  rw [happ]
  try simp only []
  rw [if_pos hreject]
  refine ⟨?_, rfl, rfl, rfl, rfl⟩
  show heapLookup (foldUpd _ (i :: rest) _) i = _
  rw [heapLookup_foldUpd _ _ _ _ (restoreCoords_idem _ _ _ _),
    if_pos (List.mem_cons_self i rest), happ]
  try simp only [Option.map_some]
  try simp only [Option.map_some']
  rw [show (⟨Geom.rect rx1 ry1 rx2 ry2, color, w, st, pts, sel⟩ : Shape).getX1 = rx1 from rfl]
  rw [show (⟨Geom.rect rx1 ry1 rx2 ry2, color, w, st, pts, sel⟩ : Shape).getY1 = ry1 from rfl]
  rw [show (⟨Geom.rect rx1 ry1 rx2 ry2, color, w, st, pts, sel⟩ : Shape).getX2 = rx2 from rfl]
  rw [show (⟨Geom.rect rx1 ry1 rx2 ry2, color, w, st, pts, sel⟩ : Shape).getY2 = ry2 from rfl]
  rw [restore_applyHandle]

/-- Mid-resize canvas for the C3 witness: "e" handle grabbed, snapping off,
pointer at (105,150) so the applied width would be 5 < MIN_SIZE. -/
def c3state : Canvas :=
  { initCanvas with
      heap := [(0, c2rect)], nextId := 1, shapes := [0], selectedShapes := [0]
      isResizing := true, resizeHandle := some "e", snapEnabled := false }

/-- C3 witness: the rejected step leaves the concrete rectangle unchanged. -/
theorem c3_resize_rollback_witness :
    heapLookup (resizeShape c3state 105 150).heap 0 = some c2rect ∧
    (resizeShape c3state 105 150).shapes = c3state.shapes ∧
    (resizeShape c3state 105 150).selectedShapes = c3state.selectedShapes ∧
    (resizeShape c3state 105 150).undoStack = c3state.undoStack ∧
    (resizeShape c3state 105 150).redoStack = c3state.redoStack :=
  c3_resize_rollback c3state 105 150 0 [] c2rect 100 100 200 200 rfl rfl rfl
    (by
      left
      show |(105 : ℝ) - 100| < MIN_SIZE
      rw [abs_of_nonneg (by norm_num : (0 : ℝ) ≤ 105 - 100)]
      norm_num [MIN_SIZE])

/-! ## Claim C6 -/

theorem sqrt_scaled (t dx dy : ℝ) :
    Real.sqrt ((t * dx) ^ 2 + (t * dy) ^ 2) = |t| * Real.sqrt (dx ^ 2 + dy ^ 2) := by
  have h : (t * dx) ^ 2 + (t * dy) ^ 2 = t ^ 2 * (dx ^ 2 + dy ^ 2) := by ring
  rw [h, Real.sqrt_mul (sq_nonneg t), Real.sqrt_sq_eq_abs]

/-- C6 amended: under tangency with nonnegative radii and positive center
distance d — external (d = r1+r2), or internal with the *first* circle at
least as large (d = r1-r2 with r2 ≤ r1) — the intersection is exactly the one
point at parameter r1/d along the center line, and that point lies on both
circles.  (For internal tangency with r2 > r1 the code's point is still the
single returned point and lies on circle 1, but not on circle 2 — see the
counterexample.) -/
theorem c6_tangent_intersection (x1 y1 r1 x2 y2 r2 : ℝ)
    (hr1 : 0 ≤ r1) (hr2 : 0 ≤ r2)
    (hd : 0 < Real.sqrt ((x2 - x1) ^ 2 + (y2 - y1) ^ 2))
    (htan : Real.sqrt ((x2 - x1) ^ 2 + (y2 - y1) ^ 2) = r1 + r2 ∨
      (Real.sqrt ((x2 - x1) ^ 2 + (y2 - y1) ^ 2) = r1 - r2 ∧ r2 ≤ r1)) :
    circleCircleIntersection x1 y1 r1 x2 y2 r2 =
      [(x1 + r1 / Real.sqrt ((x2 - x1) ^ 2 + (y2 - y1) ^ 2) * (x2 - x1),
        y1 + r1 / Real.sqrt ((x2 - x1) ^ 2 + (y2 - y1) ^ 2) * (y2 - y1))] ∧
    ∀ p ∈ circleCircleIntersection x1 y1 r1 x2 y2 r2,
      Real.sqrt ((p.1 - x1) ^ 2 + (p.2 - y1) ^ 2) = r1 ∧
      Real.sqrt ((p.1 - x2) ^ 2 + (p.2 - y2) ^ 2) = r2 := by
  set d := Real.sqrt ((x2 - x1) ^ 2 + (y2 - y1) ^ 2) with hdd
  have hb1 : ¬ (r1 + r2 < d) := by
    rcases htan with h | ⟨h, hr⟩
    · rw [h]; exact lt_irrefl (r1 + r2)
    · rw [h]; intro hc; linarith
  have hb2 : ¬ (d < |r1 - r2|) := by
    rcases htan with h | ⟨h, hr⟩
    · rw [h]
      intro hc
      have habs2 : |r1 - r2| ≤ r1 + r2 := abs_le.mpr ⟨by linarith, by linarith⟩
      linarith
    · rw [h, abs_of_nonneg (by linarith : (0 : ℝ) ≤ r1 - r2)]
      exact lt_irrefl (r1 - r2)
  have hb3 : ¬ (d = 0 ∧ r1 = r2) := fun hc => absurd hc.1 (ne_of_gt hd)
  have hb4 : d = r1 + r2 ∨ d = |r1 - r2| := by
    rcases htan with h | ⟨h, hr⟩
    · exact Or.inl h
    · exact Or.inr (by rw [abs_of_nonneg (by linarith : (0 : ℝ) ≤ r1 - r2)]; exact h)
  have heval : circleCircleIntersection x1 y1 r1 x2 y2 r2 =
      [(x1 + r1 / d * (x2 - x1), y1 + r1 / d * (y2 - y1))] := by
    simp only [circleCircleIntersection]
    rw [← hdd, if_neg hb1, if_neg hb2, if_neg hb3, if_pos hb4]
  have hb2' : ¬ (d < |r1 - r2|) := hb2
  refine ⟨heval, ?_⟩
  intro p hp
  rw [heval, List.mem_singleton] at hp
  subst hp
  have hdne : d ≠ 0 := ne_of_gt hd
  have hsq : d ^ 2 = (x2 - x1) ^ 2 + (y2 - y1) ^ 2 := Real.sq_sqrt (by positivity)
  constructor
  · have h1 : (x1 + r1 / d * (x2 - x1) - x1) = (r1 / d) * (x2 - x1) := by ring
    have h2 : (y1 + r1 / d * (y2 - y1) - y1) = (r1 / d) * (y2 - y1) := by ring
    rw [h1, h2, sqrt_scaled, ← hdd,
      abs_of_nonneg (div_nonneg hr1 (le_of_lt hd)), div_mul_cancel₀ r1 hdne]
  · have h1 : (x1 + r1 / d * (x2 - x1) - x2) = (r1 / d - 1) * (x2 - x1) := by
      field_simp
      ring
    have h2 : (y1 + r1 / d * (y2 - y1) - y2) = (r1 / d - 1) * (y2 - y1) := by
      field_simp
      ring
    rw [h1, h2, sqrt_scaled, ← hdd]
    have habs : |r1 / d - 1| * d = |r1 - d| := by
      rw [show |r1 / d - 1| * d = |r1 / d - 1| * |d| by
            rw [abs_of_nonneg (le_of_lt hd)],
        ← abs_mul]
      congr 1
      field_simp
    rw [habs]
    rcases htan with h | ⟨h, hr⟩
    · rw [h]
      rw [show r1 - (r1 + r2) = -r2 by ring, abs_neg, abs_of_nonneg hr2]
    · rw [h]
      rw [show r1 - (r1 - r2) = r2 by ring, abs_of_nonneg hr2]

/-- C6 counterexample: internal tangency with the second circle larger
(centers (0,0) and (100,0), radii 50 and 150, d = 100 = |r1-r2| > 0).  The
single returned point (50,0) is at distance 50 from the second center, not
150 — it does not lie on both circles. -/
theorem c6_counterexample :
    circleCircleIntersection 0 0 50 100 0 150 = [(50, 0)] ∧
    Real.sqrt (((50 : ℝ) - 100) ^ 2 + ((0 : ℝ) - 0) ^ 2) ≠ 150 := by
  have hd : Real.sqrt (((100 : ℝ) - 0) ^ 2 + ((0 : ℝ) - 0) ^ 2) = 100 := by
    rw [show ((100 : ℝ) - 0) ^ 2 + ((0 : ℝ) - 0) ^ 2 = 100 ^ 2 by norm_num,
      Real.sqrt_sq (by norm_num : (0 : ℝ) ≤ 100)]
  have habs : |(50 : ℝ) - 150| = 100 := by
    rw [abs_sub_comm, abs_of_nonneg (by norm_num : (0 : ℝ) ≤ 150 - 50)]
    norm_num
  constructor
  · simp only [circleCircleIntersection]
    rw [hd, if_neg (by norm_num), if_neg (by rw [habs]; norm_num),
      if_neg (by norm_num), if_pos (Or.inr habs.symm)]
    norm_num
  · rw [show ((50 : ℝ) - 100) ^ 2 + ((0 : ℝ) - 0) ^ 2 = 50 ^ 2 by norm_num,
      Real.sqrt_sq (by norm_num : (0 : ℝ) ≤ 50)]
    norm_num

/-- C6 witness: the externally tangent scenario — circles (200,200) r=50 and
(300,200) r=50 yield exactly the point (250,200). -/
theorem c6_tangent_intersection_witness :
    circleCircleIntersection 200 200 50 300 200 50 = [(250, 200)] := by
  have hd : Real.sqrt (((300 : ℝ) - 200) ^ 2 + ((200 : ℝ) - 200) ^ 2) = 100 := by
    rw [show ((300 : ℝ) - 200) ^ 2 + ((200 : ℝ) - 200) ^ 2 = 100 ^ 2 by norm_num,
      Real.sqrt_sq (by norm_num : (0 : ℝ) ≤ 100)]
  have h := c6_tangent_intersection 200 200 50 300 200 50 (by norm_num) (by norm_num)
    (by rw [hd]; norm_num) (Or.inl (by rw [hd]; norm_num))
  rw [h.1, hd]
  norm_num

/-! ## Claim C7 -/

theorem snapLoop_spec (x y : ℝ) (ps : List (ℝ × ℝ)) :
    ∀ best : Option ((ℝ × ℝ) × ℝ),
      (∀ q m, best = some (q, m) → m = snapDistTo x y q ∧ m ≤ 10) →
      (snapLoop x y ps best = none →
        best = none ∧ ∀ p ∈ ps, ¬ snapDistTo x y p ≤ 10) ∧
      (∀ r m, snapLoop x y ps best = some (r, m) →
        m = snapDistTo x y r ∧ m ≤ 10 ∧
        (r ∈ ps ∨ ∃ m0, best = some (r, m0)) ∧
        (∀ p ∈ ps, m ≤ snapDistTo x y p ∨ ¬ snapDistTo x y p ≤ 10) ∧
        (∀ q m0, best = some (q, m0) → m ≤ m0)) := by
  induction ps with
  | nil =>
    intro best hbest
    constructor
    · intro h
      exact ⟨h, by simp⟩
    · intro r m h
      have hbb : best = some (r, m) := h
      have hb := hbest r m hbb
      refine ⟨hb.1, hb.2, Or.inr ⟨m, hbb⟩, by simp, ?_⟩
      intro q m0 hq
      rw [hbb] at hq
      simp only [Option.some.injEq, Prod.mk.injEq] at hq
      exact le_of_eq hq.2
  | cons p rest ih =>
    intro best hbest
    cases best with
    | none =>
      by_cases hdle : snapDistTo x y p ≤ 10
      · have hstep : snapLoop x y (p :: rest) none =
            snapLoop x y rest (some (p, snapDistTo x y p)) := by
          simp only [snapLoop]
          rw [if_pos hdle]
        have hb' : ∀ q m, (some (p, snapDistTo x y p) :
            Option ((ℝ × ℝ) × ℝ)) = some (q, m) → m = snapDistTo x y q ∧ m ≤ 10 := by
          intro q m hq
          simp only [Option.some.injEq, Prod.mk.injEq] at hq
          constructor
          · rw [← hq.1, ← hq.2]
          · rw [← hq.2]; exact hdle
        obtain ⟨ihnone, ihsome⟩ := ih (some (p, snapDistTo x y p)) hb'
        constructor
        · intro h
          rw [hstep] at h
          exact absurd (ihnone h).1 (by simp)
        · intro r m h
          rw [hstep] at h
          obtain ⟨h1, h2, h3, h4, h5⟩ := ihsome r m h
          refine ⟨h1, h2, ?_, ?_, ?_⟩
          · rcases h3 with h3 | ⟨m0, h3⟩
            · exact Or.inl (List.mem_cons_of_mem p h3)
            · simp only [Option.some.injEq, Prod.mk.injEq] at h3
              exact Or.inl (by rw [← h3.1]; exact List.mem_cons_self p rest)
          · intro p2 hp2
            rcases List.mem_cons.mp hp2 with hp2 | hp2
            · subst hp2
              exact Or.inl (h5 p2 (snapDistTo x y p2) rfl)
            · exact h4 p2 hp2
          · intro q m0 hq
            exact absurd hq (by simp)
      · have hstep : snapLoop x y (p :: rest) none = snapLoop x y rest none := by
          simp only [snapLoop]
          rw [if_neg hdle]
        obtain ⟨ihnone, ihsome⟩ :=
          ih none (by intro q m hq; exact absurd hq (by simp))
        constructor
        · intro h
          rw [hstep] at h
          refine ⟨rfl, ?_⟩
          intro p2 hp2
          rcases List.mem_cons.mp hp2 with hp2 | hp2
          · subst hp2; exact hdle
          · exact (ihnone h).2 p2 hp2
        · intro r m h
          rw [hstep] at h
          obtain ⟨h1, h2, h3, h4, h5⟩ := ihsome r m h
          refine ⟨h1, h2, ?_, ?_, ?_⟩
          · rcases h3 with h3 | ⟨m0, h3⟩
            · exact Or.inl (List.mem_cons_of_mem p h3)
            · exact absurd h3 (by simp)
          · intro p2 hp2
            rcases List.mem_cons.mp hp2 with hp2 | hp2
            · subst hp2; exact Or.inr hdle
            · exact h4 p2 hp2
          · intro q m0 hq
            exact absurd hq (by simp)
    | some qm =>
      obtain ⟨q0, m0⟩ := qm
      by_cases hcond : snapDistTo x y p < m0 ∧ snapDistTo x y p ≤ 10
      · have hstep : snapLoop x y (p :: rest) (some (q0, m0)) =
            snapLoop x y rest (some (p, snapDistTo x y p)) := by
          simp only [snapLoop]
          rw [if_pos hcond]
        have hb' : ∀ q m, (some (p, snapDistTo x y p) :
            Option ((ℝ × ℝ) × ℝ)) = some (q, m) → m = snapDistTo x y q ∧ m ≤ 10 := by
          intro q m hq
          simp only [Option.some.injEq, Prod.mk.injEq] at hq
          constructor
          · rw [← hq.1, ← hq.2]
          · rw [← hq.2]; exact hcond.2
        obtain ⟨ihnone, ihsome⟩ := ih (some (p, snapDistTo x y p)) hb'
        constructor
        · intro h
          rw [hstep] at h
          exact absurd (ihnone h).1 (by simp)
        · intro r m h
          rw [hstep] at h
          obtain ⟨h1, h2, h3, h4, h5⟩ := ihsome r m h
          refine ⟨h1, h2, ?_, ?_, ?_⟩
          · rcases h3 with h3 | ⟨mm, h3⟩
            · exact Or.inl (List.mem_cons_of_mem p h3)
            · simp only [Option.some.injEq, Prod.mk.injEq] at h3
              exact Or.inl (by rw [← h3.1]; exact List.mem_cons_self p rest)
          · intro p2 hp2
            rcases List.mem_cons.mp hp2 with hp2 | hp2
            · subst hp2
              exact Or.inl (h5 p2 (snapDistTo x y p2) rfl)
            · exact h4 p2 hp2
          · intro q m1 hq
            simp only [Option.some.injEq, Prod.mk.injEq] at hq
            have hm : m ≤ snapDistTo x y p := h5 p (snapDistTo x y p) rfl
            rw [← hq.2]
            exact le_of_lt (lt_of_le_of_lt hm hcond.1)
      · have hstep : snapLoop x y (p :: rest) (some (q0, m0)) =
            snapLoop x y rest (some (q0, m0)) := by
          simp only [snapLoop]
          rw [if_neg hcond]
        obtain ⟨ihnone, ihsome⟩ := ih (some (q0, m0)) hbest
        constructor
        · intro h
          rw [hstep] at h
          exact absurd (ihnone h).1 (by simp)
        · intro r m h
          rw [hstep] at h
          obtain ⟨h1, h2, h3, h4, h5⟩ := ihsome r m h
          refine ⟨h1, h2, Or.imp (List.mem_cons_of_mem p) id h3, ?_, h5⟩
          intro p2 hp2
          rcases List.mem_cons.mp hp2 with hp2 | hp2
          · subst hp2
            rcases not_and_or.mp hcond with hc | hc
            · have hm0 : m ≤ m0 := h5 q0 m0 rfl
              exact Or.inl (le_trans hm0 (not_lt.mp hc))
            · exact Or.inr hc
          · exact h4 p2 hp2

/-- C7: with snapping enabled, `get_snap_point` returns a candidate of minimum
Euclidean distance whenever some candidate is within the 10 px threshold, and
returns the raw pointer position unchanged when no candidate is. -/
theorem c7_snap_nearest (c : Canvas) (x y : ℝ) (hsnap : c.snapEnabled = true) :
    ((∃ p ∈ snapCandidates c, snapDistTo x y p ≤ 10) →
      getSnapPoint c x y ∈ snapCandidates c ∧
      snapDistTo x y (getSnapPoint c x y) ≤ 10 ∧
      ∀ q ∈ snapCandidates c,
        snapDistTo x y (getSnapPoint c x y) ≤ snapDistTo x y q) ∧
    ((∀ p ∈ snapCandidates c, ¬ snapDistTo x y p ≤ 10) →
      getSnapPoint c x y = (x, y)) := by
  obtain ⟨hnone, hsome⟩ := snapLoop_spec x y (snapCandidates c) none
    (by intro q m hq; exact absurd hq (by simp))
  have hgs : getSnapPoint c x y =
      (match snapLoop x y (snapCandidates c) none with
       | some (p, _) => p
       | none => (x, y)) := by
    unfold getSnapPoint
    rw [if_pos hsnap]
  constructor
  · rintro ⟨p0, hp0, hle0⟩
    cases hres : snapLoop x y (snapCandidates c) none with
    | none => exact absurd hle0 ((hnone hres).2 p0 hp0)
    | some rm =>
      obtain ⟨r, m⟩ := rm
      obtain ⟨h1, h2, h3, h4, h5⟩ := hsome r m hres
      have hr : getSnapPoint c x y = r := by rw [hgs, hres]
      rw [hr]
      refine ⟨?_, ?_, ?_⟩
      · rcases h3 with h3 | ⟨m0, h3⟩
        · exact h3
        · exact absurd h3 (by simp)
      · rw [← h1]; exact h2
      · intro q hq
        rcases h4 q hq with h | h
        · rw [← h1]; exact h
        · rw [← h1]
          exact le_of_lt (lt_of_le_of_lt h2 (not_le.mp h))
  · intro hfar
    rw [hgs, snapLoop_none_of_far x y _ hfar]

/-- The line of the C7 scenario: endpoint (100,300), far second endpoint. -/
def c7line : Shape := mkLine 100 300 400 300 "black" 1 none

/-- Canvas holding only that line, all snap kinds enabled. -/
def c7state : Canvas :=
  { initCanvas with heap := [(0, c7line)], nextId := 1, shapes := [0] }

/-- C7 witness: pointer (98,302) snaps to exactly (100,300); pointer (120,320)
is unchanged. -/
theorem c7_snap_nearest_witness :
    getSnapPoint c7state 98 302 = (100, 300) ∧
    getSnapPoint c7state 120 320 = (120, 320) := by
  have hcand : snapCandidates c7state = [(100, 300), (400, 300), (250, 300)] := by
    simp [snapCandidates, resolveShapes, c7state, c7line, mkLine, heapLookup,
      snapCandidatesOfShape, pairIntersections, initCanvas]
    norm_num
  constructor
  · have h1 : snapDistTo 98 302 (100, 300) ≤ 10 := by
      unfold snapDistTo
      apply sqrt_le_ten
      norm_num
    have h2 : ¬ (snapDistTo 98 302 (400, 300) < snapDistTo 98 302 (100, 300) ∧
        snapDistTo 98 302 (400, 300) ≤ 10) := by
      intro hc
      refine (?_ : ¬ snapDistTo 98 302 (400, 300) ≤ 10) hc.2
      unfold snapDistTo
      apply not_sqrt_le_ten
      norm_num
    have h3 : ¬ (snapDistTo 98 302 (250, 300) < snapDistTo 98 302 (100, 300) ∧
        snapDistTo 98 302 (250, 300) ≤ 10) := by
      intro hc
      refine (?_ : ¬ snapDistTo 98 302 (250, 300) ≤ 10) hc.2
      unfold snapDistTo
      apply not_sqrt_le_ten
      norm_num
    unfold getSnapPoint
    rw [if_pos (show c7state.snapEnabled = true from rfl), hcand]
    simp only [snapLoop]
    rw [if_pos h1, if_neg h2, if_neg h3]
  · refine (c7_snap_nearest c7state 120 320 rfl).2 ?_
    rw [hcand]
    intro p hp
    fin_cases hp <;>
      · unfold snapDistTo
        apply not_sqrt_le_ten
        norm_num

/-! ## Claim C10 -/

/-- The `is_selected` flag stored for identity `i` (false when dangling). -/
def flagOfH (h : List (Nat × Ann)) (i : Nat) : Bool :=
  ((heapLookup h i).map Ann.isSelected).getD false

/-- The claimed synchronization invariant: every annotation in the collection
is flagged selected exactly when its identity is in the selected list, and the
selected list has no duplicates. -/
def Inv (m : Manager) : Prop :=
  (∀ i ∈ m.annotations, (flagOfH m.heap i = true ↔ i ∈ m.selected)) ∧ m.selected.Nodup

/-- Well-formedness of the object-store encoding: annotation objects are
pairwise distinct and the collection has no dangling identity. -/
def Wf (m : Manager) : Prop :=
  m.annotations.Nodup ∧ ∀ i ∈ m.annotations, (heapLookup m.heap i).isSome = true

theorem setFlag_idem (b : Bool) (a : Ann) : setFlag b (setFlag b a) = setFlag b a := rfl

theorem heapLookup_isSome_heapUpd {α : Type} (h : List (Nat × α)) (i j : Nat) (f : α → α) :
    (heapLookup (heapUpd h i f) j).isSome = (heapLookup h j).isSome := by
  rw [heapLookup_heapUpd]
  by_cases hji : j = i
  · rw [if_pos hji]
    cases heapLookup h j <;> rfl
  · rw [if_neg hji]

theorem flagOfH_heapUpd_self (h : List (Nat × Ann)) (i : Nat) (b : Bool)
    (hs : (heapLookup h i).isSome = true) :
    flagOfH (heapUpd h i (setFlag b)) i = b := by
  unfold flagOfH
  rw [heapLookup_heapUpd, if_pos rfl]
  cases hh : heapLookup h i with
  | none => rw [hh] at hs; simp at hs
  | some a => rfl

theorem flagOfH_heapUpd_other (h : List (Nat × Ann)) (i j : Nat) (f : Ann → Ann)
    (hne : j ≠ i) : flagOfH (heapUpd h i f) j = flagOfH h j := by
  unfold flagOfH
  rw [heapLookup_heapUpd, if_neg hne]

theorem flagOfH_foldUpd_setFlag_mem (h : List (Nat × Ann)) (ids : List Nat) (b : Bool)
    (j : Nat) (hj : j ∈ ids) (hs : (heapLookup h j).isSome = true) :
    flagOfH (foldUpd h ids (setFlag b)) j = b := by
  unfold flagOfH
  rw [heapLookup_foldUpd _ _ _ _ (setFlag_idem b), if_pos hj]
  cases hh : heapLookup h j with
  | none => rw [hh] at hs; simp at hs
  | some a => rfl

theorem flagOfH_foldUpd_setFlag_not_mem (h : List (Nat × Ann)) (ids : List Nat) (b : Bool)
    (j : Nat) (hj : j ∉ ids) :
    flagOfH (foldUpd h ids (setFlag b)) j = flagOfH h j := by
  unfold flagOfH
  rw [heapLookup_foldUpd _ _ _ _ (setFlag_idem b), if_neg hj]

theorem clearSelection_inv (m : Manager) (hwf : Wf m) (hinv : Inv m) :
    Inv (clearSelection m) ∧ Wf (clearSelection m) := by
  obtain ⟨hflag, hnd⟩ := hinv
  obtain ⟨hand, hdom⟩ := hwf
  refine ⟨⟨?_, List.nodup_nil⟩, hand, ?_⟩
  · intro i hi
    show flagOfH (foldUpd m.heap m.selected (setFlag false)) i = true ↔ i ∈ ([] : List Nat)
    simp only [List.not_mem_nil, iff_false]
    by_cases hisel : i ∈ m.selected
    · rw [flagOfH_foldUpd_setFlag_mem m.heap m.selected false i hisel (hdom i hi)]
      simp
    · rw [flagOfH_foldUpd_setFlag_not_mem m.heap m.selected false i hisel]
      intro hc
      exact hisel ((hflag i hi).mp hc)
  · intro i hi
    show (heapLookup (foldUpd m.heap m.selected (setFlag false)) i).isSome = true
    rw [heapLookup_isSome_foldUpd]
    exact hdom i hi

theorem removeAnn_inv (m : Manager) (i : Nat) (hwf : Wf m) (hinv : Inv m) :
    Inv (removeAnn m i) := by
  obtain ⟨hflag, hnd⟩ := hinv
  obtain ⟨hand, hdom⟩ := hwf
  unfold removeAnn
  by_cases hmem : i ∈ m.annotations
  · rw [if_pos hmem]
    constructor
    · intro j hj
      have hj2 := (List.Nodup.mem_erase_iff hand).mp hj
      show flagOfH m.heap j = true ↔
        j ∈ (if i ∈ m.selected then m.selected.erase i else m.selected)
      by_cases hisel : i ∈ m.selected
      · rw [if_pos hisel, List.mem_erase_of_ne hj2.1]
        exact hflag j hj2.2
      · rw [if_neg hisel]
        exact hflag j hj2.2
    · show (if i ∈ m.selected then m.selected.erase i else m.selected).Nodup
      by_cases hisel : i ∈ m.selected
      · rw [if_pos hisel]
        exact List.Nodup.erase i hnd
      · rw [if_neg hisel]
        exact hnd
  · rw [if_neg hmem]
    exact ⟨hflag, hnd⟩

theorem selectSearch_mem (m : Manager) (p : Pt) :
    ∀ (l : List Nat) (best : Option (Nat × ℝ)) (t : Nat),
      selectSearch m p l best = some t → t ∈ l ∨ ∃ d, best = some (t, d) := by
  intro l
  induction l with
  | nil =>
    intro best t h
    right
    cases best with
    | none => exact absurd h (by simp [selectSearch])
    | some qd =>
      obtain ⟨q, d⟩ := qd
      have hq : q = t := by simpa [selectSearch] using h
      exact ⟨d, by rw [hq]⟩
  | cons i rest ih =>
    intro best t h
    simp only [selectSearch] at h
    split at h
    · rcases ih best t h with h2 | h2
      · exact Or.inl (List.mem_cons_of_mem i h2)
      · exact Or.inr h2
    · split at h
      · split at h
        · simp only [Option.some.injEq] at h
          exact Or.inl (h ▸ List.mem_cons_self i rest)
        · split at h
          · rcases ih _ t h with h2 | h2
            · exact Or.inl (List.mem_cons_of_mem i h2)
            · obtain ⟨d, hd⟩ := h2
              simp only [Option.some.injEq, Prod.mk.injEq] at hd
              exact Or.inl (by rw [← hd.1]; exact List.mem_cons_self i rest)
          · split at h
            · rcases ih _ t h with h2 | h2
              · exact Or.inl (List.mem_cons_of_mem i h2)
              · obtain ⟨d, hd⟩ := h2
                simp only [Option.some.injEq, Prod.mk.injEq] at hd
                exact Or.inl (by rw [← hd.1]; exact List.mem_cons_self i rest)
            · rcases ih _ t h with h2 | h2
              · exact Or.inl (List.mem_cons_of_mem i h2)
              · exact Or.inr h2
      · rcases ih best t h with h2 | h2
        · exact Or.inl (List.mem_cons_of_mem i h2)
        · exact Or.inr h2

theorem selectAnn_inv (m : Manager) (p : Pt) (ctrl : Bool)
    (hwf : Wf m) (hinv : Inv m) : Inv (selectAnn m p ctrl).1 := by
  unfold selectAnn
  cases hres : selectSearch m p m.annotations.reverse none with
  | none =>
    cases ctrl
    · exact (clearSelection_inv m hwf hinv).1
    · exact hinv
  | some t =>
    have ht : t ∈ m.annotations := by
      rcases selectSearch_mem m p m.annotations.reverse none t hres with h | ⟨d, hd⟩
      · exact List.mem_reverse.mp h
      · exact absurd hd (by simp)
    have htS : (heapLookup m.heap t).isSome = true := hwf.2 t ht
    obtain ⟨hflag, hnd⟩ := hinv
    cases ctrl
    · -- plain click: clear, then select only the target
      obtain ⟨⟨hflag1, _⟩, _, hdom1⟩ := clearSelection_inv m hwf ⟨hflag, hnd⟩
      have hsel0 : (clearSelection m).selected = [] := rfl
      show Inv { heap := heapUpd (clearSelection m).heap t (setFlag true)
                 nextId := (clearSelection m).nextId
                 annotations := (clearSelection m).annotations
                 selected := (clearSelection m).selected ++ [t] }
      constructor
      · intro j hj
        show flagOfH (heapUpd (clearSelection m).heap t (setFlag true)) j = true ↔
          j ∈ (clearSelection m).selected ++ [t]
        rw [hsel0, List.nil_append]
        by_cases hjt : j = t
        · subst hjt
          rw [flagOfH_heapUpd_self _ _ _ (hdom1 j hj)]
          simp
        · rw [flagOfH_heapUpd_other _ _ _ _ hjt]
          have h0 := hflag1 j hj
          rw [hsel0] at h0
          simp only [List.not_mem_nil, iff_false] at h0
          exact ⟨fun hc => absurd hc h0,
            fun hc => absurd (List.mem_singleton.mp hc) hjt⟩
      · show ((clearSelection m).selected ++ [t]).Nodup
        rw [hsel0]
        simp
    · -- ctrl click: toggle the target's membership
      show Inv ((if t ∈ m.selected then
          ({ m with heap := heapUpd m.heap t (setFlag false)
                    selected := m.selected.erase t }, some t)
        else
          ({ m with heap := heapUpd m.heap t (setFlag true)
                    selected := m.selected ++ [t] }, some t) :
          Manager × Option Nat).1)
      by_cases hts : t ∈ m.selected
      · rw [if_pos hts]
        constructor
        · intro j hj
          show flagOfH (heapUpd m.heap t (setFlag false)) j = true ↔ j ∈ m.selected.erase t
          by_cases hjt : j = t
          · subst hjt
            rw [flagOfH_heapUpd_self _ _ _ htS]
            exact ⟨fun hc => absurd hc (by simp),
              fun hc => absurd hc (List.Nodup.not_mem_erase hnd)⟩
          · rw [flagOfH_heapUpd_other _ _ _ _ hjt, List.mem_erase_of_ne hjt]
            exact hflag j hj
        · exact List.Nodup.erase t hnd
      · rw [if_neg hts]
        constructor
        · intro j hj
          show flagOfH (heapUpd m.heap t (setFlag true)) j = true ↔ j ∈ m.selected ++ [t]
          by_cases hjt : j = t
          · subst hjt
            rw [flagOfH_heapUpd_self _ _ _ htS]
            simp
          · rw [flagOfH_heapUpd_other _ _ _ _ hjt]
            constructor
            · intro hc
              exact List.mem_append.mpr (Or.inl ((hflag j hj).mp hc))
            · intro hc
              rcases List.mem_append.mp hc with hc | hc
              · exact (hflag j hj).mpr hc
              · exact absurd (List.mem_singleton.mp hc) hjt
        · show (m.selected ++ [t]).Nodup
          rw [List.nodup_append]
          refine ⟨hnd, List.nodup_singleton t, ?_⟩
          intro a2 ha hb
          rw [List.mem_singleton.mp hb] at ha
          exact hts ha

theorem selectScan_inv (p : Pt) :
    ∀ (l : List Nat) (m : Manager), (∀ j ∈ l, j ∈ m.annotations) → Wf m → Inv m →
      Inv (selectScan m p l) ∧ Wf (selectScan m p l) := by
  intro l
  induction l with
  | nil =>
    intro m _ hwf hinv
    exact ⟨hinv, hwf⟩
  | cons i rest ih =>
    intro m hl hwf hinv
    show Inv (selectScan m p (i :: rest)) ∧ Wf (selectScan m p (i :: rest))
    simp only [selectScan]
    cases hh : heapLookup m.heap i with
    | none => exact ih m (fun j hj => hl j (List.mem_cons_of_mem i hj)) hwf hinv
    | some a =>
      show Inv (if annContainsPoint a p 5 = true ∧ i ∉ m.selected then
            { m with heap := heapUpd m.heap i (setFlag true)
                     selected := m.selected ++ [i] }
          else selectScan m p rest) ∧
        Wf (if annContainsPoint a p 5 = true ∧ i ∉ m.selected then
            { m with heap := heapUpd m.heap i (setFlag true)
                     selected := m.selected ++ [i] }
          else selectScan m p rest)
      by_cases hcond : annContainsPoint a p 5 = true ∧ i ∉ m.selected
      · rw [if_pos hcond]
        have hiA : i ∈ m.annotations := hl i (List.mem_cons_self i rest)
        have hiS : (heapLookup m.heap i).isSome = true := hwf.2 i hiA
        obtain ⟨hflag, hnd⟩ := hinv
        refine ⟨⟨?_, ?_⟩, hwf.1, ?_⟩
        · intro j hj
          show flagOfH (heapUpd m.heap i (setFlag true)) j = true ↔ j ∈ m.selected ++ [i]
          by_cases hjt : j = i
          · subst hjt
            rw [flagOfH_heapUpd_self _ _ _ hiS]
            simp
          · rw [flagOfH_heapUpd_other _ _ _ _ hjt]
            constructor
            · intro hc
              exact List.mem_append.mpr (Or.inl ((hflag j hj).mp hc))
            · intro hc
              rcases List.mem_append.mp hc with hc | hc
              · exact (hflag j hj).mpr hc
              · exact absurd (List.mem_singleton.mp hc) hjt
        · show (m.selected ++ [i]).Nodup
          rw [List.nodup_append]
          refine ⟨hnd, List.nodup_singleton i, ?_⟩
          intro a2 ha hb
          rw [List.mem_singleton.mp hb] at ha
          exact hcond.2 ha
        · intro j hj
          show (heapLookup (heapUpd m.heap i (setFlag true)) j).isSome = true
          rw [heapLookup_isSome_heapUpd]
          exact hwf.2 j hj
      · rw [if_neg hcond]
        exact ih m (fun j hj => hl j (List.mem_cons_of_mem i hj)) hwf hinv

theorem selectFold_inv (pts : List Pt) :
    ∀ acc : Manager, Inv acc ∧ Wf acc →
      Inv (pts.foldl (fun a q => selectScan a q a.annotations.reverse) acc) ∧
      Wf (pts.foldl (fun a q => selectScan a q a.annotations.reverse) acc) := by
  induction pts with
  | nil =>
    intro acc h
    exact h
  | cons q rest ih =>
    intro acc h
    have hstep := selectScan_inv q acc.annotations.reverse acc
      (fun j hj => List.mem_reverse.mp hj) h.2 h.1
    exact ih (selectScan acc q acc.annotations.reverse) ⟨hstep.1, hstep.2⟩

theorem selectMultiple_inv (m : Manager) (pts : List Pt) (ctrl : Bool)
    (hwf : Wf m) (hinv : Inv m) : Inv (selectMultiple m pts ctrl) := by
  unfold selectMultiple
  have h0 : Inv (if ctrl then m else clearSelection m) ∧
      Wf (if ctrl then m else clearSelection m) := by
    cases ctrl
    · exact (clearSelection_inv m hwf hinv)
    · exact ⟨hinv, hwf⟩
  exact (selectFold_inv pts (if ctrl then m else clearSelection m) h0).1

/-- C10: starting from a manager whose per-annotation selection flag agrees
with membership in the selected list (and whose annotations are distinct,
dangling-free objects), each of `select_annotation`, `select_multiple`,
`clear_selection` and `remove_annotation` preserves the flag-membership
equivalence for every annotation remaining in the collection, and the
selected list stays duplicate-free. -/
theorem c10_selection_flag_sync (m : Manager) (hwf : Wf m) (hinv : Inv m) :
    (∀ (p : Pt) (ctrl : Bool), Inv (selectAnn m p ctrl).1) ∧
    (∀ (pts : List Pt) (ctrl : Bool), Inv (selectMultiple m pts ctrl)) ∧
    Inv (clearSelection m) ∧
    (∀ i : Nat, Inv (removeAnn m i)) :=
  ⟨fun p ctrl => selectAnn_inv m p ctrl hwf hinv,
   fun pts ctrl => selectMultiple_inv m pts ctrl hwf hinv,
   (clearSelection_inv m hwf hinv).1,
   fun i => removeAnn_inv m i hwf hinv⟩

/-- C10 witness: the synchronization result at the freshly initialized
manager. -/
theorem c10_selection_flag_sync_witness :
    Inv (clearSelection initManager) ∧ Inv (removeAnn initManager 0) := by
  have h := c10_selection_flag_sync initManager
    ⟨List.nodup_nil, fun i hi => absurd hi (by simp [initManager])⟩
    ⟨fun i hi => absurd hi (by simp [initManager]), List.nodup_nil⟩
  exact ⟨h.2.2.1, h.2.2.2 0⟩

end AICAD
